import Mathlib

/-!
Verification development for `first_boot/expand_partitions.py` of rpi-image-base.

The script reconciles an on-device partition table against a fixed template,
relocating and resizing partitions so they fill the device.  We embed the
script shallowly:

* geometry is in sectors, with pyparted's inclusive-end convention
  (`length = end - start + 1`); sector indices are `Int` because Python
  subtraction can go negative;
* the mutable `parted.Disk` is a value `Disk`; each operation takes and
  returns a state `St` consisting of the disk plus a trace of the committed
  mutations and raw-device writes (`Action`), so that "no byte copied" /
  "no table mutation" claims are statements about the trace;
* fatal `die(...)` calls, the `ValueError` raised by `move_partition`, the
  `IndexError` of `[-1]` / `[n]` on a too-short list, and the
  `ZeroDivisionError` of dividing by a zero count are the non-`ok`
  constructors of `Outcome`;
* CPython's true division of two ints is correctly rounded IEEE-754 binary64
  division; `int(...)` truncates toward zero.  This is modelled exactly (for
  values in the normal range, gradual underflow/overflow being irrelevant at
  device scale) by `pyFloorFloatDiv` below, which rounds the exact rational
  quotient to 53 significant bits with ties to even and then truncates;
* the external `mkfs.*` / `resize2fs` invocations and `disk.commit()` are
  collaborators outside the source; they are modelled as succeeding, with the
  filesystem operations recorded in the trace.
-/

namespace ExpandPartitions

/-- Floor of log base 2, computed with explicit fuel so that the kernel can
evaluate it (the fuel argument only ever needs `log2 n` many steps). -/
def natLog2F : ℕ → ℕ → ℕ
  | 0, _ => 0
  | fuel + 1, n => if n < 2 then 0 else natLog2F fuel (n / 2) + 1

/-- Floor of log base 2 of a natural number (0 at 0). -/
def natLog2 (n : ℕ) : ℕ := natLog2F n n

/-- Round the exact rational `p / d` to the nearest integer, ties to even. -/
def rnd53 (p d : ℕ) : ℕ :=
  if 2 * (p % d) < d then p / d
  else if d < 2 * (p % d) then p / d + 1
  else if p / d % 2 = 0 then p / d else p / d + 1

/-- Exponent of the binary64 value nearest `a / b` when `b ≤ a`: the `e`
with `2 ^ e ≤ a / b < 2 ^ (e + 1)`. -/
def floatExpPos (a b : ℕ) : ℕ :=
  if b * 2 ^ (natLog2 a - natLog2 b) ≤ a then natLog2 a - natLog2 b
  else natLog2 a - natLog2 b - 1

/-- Magnitude of the negated exponent of `a / b` when `a < b`: the `j ≥ 1`
with `2 ^ (-j) ≤ a / b < 2 ^ (-j + 1)`. -/
def floatExpNeg (a b : ℕ) : ℕ :=
  if b ≤ a * 2 ^ (natLog2 b - natLog2 a) then natLog2 b - natLog2 a
  else natLog2 b - natLog2 a + 1

/-- Quotient branch of `pyFloorFloatDiv` for `b ≤ a` with exponent `e`
(`2 ^ e ≤ a / b < 2 ^ (e + 1)`): round the significand
`(a / b) * 2 ^ (52 - e)` to the nearest integer (ties to even) and scale
back, truncating toward zero. -/
def pyFloorFloatDivPos (a b e : ℕ) : ℕ :=
  if 52 ≤ e then rnd53 (a * 2 ^ 52) (b * 2 ^ e) * 2 ^ (e - 52)
  else rnd53 (a * 2 ^ 52) (b * 2 ^ e) / 2 ^ (52 - e)

/-- Model of CPython's `int(a / b)` for nonnegative ints `a`, `b`: the exact
quotient `a / b` is rounded to the nearest binary64 value (53 significant
bits, round to nearest, ties to even; exponent range unbounded, which agrees
with IEEE-754 for all magnitudes that can arise from device geometry) and the
resulting value is truncated toward zero. -/
def pyFloorFloatDiv (a b : ℕ) : ℕ :=
  if a = 0 ∨ b = 0 then 0
  else if b ≤ a then pyFloorFloatDivPos a b (floatExpPos a b)
  else rnd53 (a * 2 ^ (52 + floatExpNeg a b)) b / 2 ^ (52 + floatExpNeg a b)

/-- Model of CPython's `int(x / y)` on ints: float true division then
truncation toward zero.  Negative numerators divide symmetrically (binary64
rounding and `int` truncation are both sign-symmetric).  The script only ever
divides by positive values. -/
def pyIntTrueDiv (x y : ℤ) : ℤ :=
  if 0 ≤ x then (pyFloorFloatDiv x.toNat y.toNat : ℤ)
  else -(pyFloorFloatDiv x.natAbs y.toNat : ℤ)

/-- A committed partition-table entry: `parted.Partition` restricted to the
attributes the script reads.  `start`/`stop` are the first and last sector of
`partition.geometry` (pyparted ends are inclusive), `number` the table slot,
`fsType` the string `partition.fileSystem.type`. -/
structure Partition where
  number : ℕ
  start : ℤ
  stop : ℤ
  fsType : String
deriving DecidableEq, Repr

/-- `partition.getLength()` in sectors: pyparted geometry length is
`end - start + 1`. -/
def Partition.getLength (p : Partition) : ℤ := p.stop - p.start + 1

/-- A `parted.Geometry` used for free-space regions (inclusive ends). -/
structure Geometry where
  start : ℤ
  stop : ℤ
deriving DecidableEq, Repr

/-- `geometry.getLength()` in sectors. -/
def Geometry.getLength (g : Geometry) : ℤ := g.stop - g.start + 1

/-- The `parted.Disk` state: device length in sectors, logical sector size in
bytes, and the committed partitions in on-disk order (sorted by start sector,
which is how pyparted's `disk.partitions` lists them). -/
structure Disk where
  length : ℤ
  sectorSize : ℤ
  partitions : List Partition
deriving DecidableEq, Repr

/-- Gap scan behind `Disk.getFreeSpaceRegions`: walks the partition list in
on-disk order, emitting each maximal unclaimed sector range of the device
`[0, devLen - 1]`. -/
def freeRegionsAux (devLen : ℤ) : ℤ → List Partition → List Geometry
  | cur, [] => if cur ≤ devLen - 1 then [⟨cur, devLen - 1⟩] else []
  | cur, q :: rest =>
      (if cur ≤ q.start - 1 then [⟨cur, q.start - 1⟩] else [])
        ++ freeRegionsAux devLen (max cur (q.stop + 1)) rest

/-- `disk.getFreeSpaceRegions()`: the maximal sector ranges of the device not
claimed by any committed partition, in ascending order. -/
def Disk.getFreeSpaceRegions (d : Disk) : List Geometry :=
  freeRegionsAux d.length 0 d.partitions

/-- `is_free_space(disk, start, end)` (source lines 42-47): whether some free
region wholly contains `[start, end]`. -/
def is_free_space (d : Disk) (start stop : ℤ) : Bool :=
  d.getFreeSpaceRegions.any fun space =>
    decide (space.start ≤ start) && decide (stop ≤ space.stop)

/-- The messages passed to `die(msg)` (and hence logged at critical level
before `sys.exit(1)`), one constructor per call site, carrying the values the
source interpolates into the f-string:
`shFailed c` = "(c) did not complete successfully" (line 30),
`creatingPartitionFailed` = "Creating partition failed" (line 59),
`resizeFailed n` = "Partition (path of n) resize failed" (line 70),
`moveOccupied n` = "Trying to move partition (n) into a space already
occupied" (line 89),
`deletionFailed` = "Deletion of old partition failed" (line 115),
`morePartitions` = "There are more partitions on the device than expected"
(line 148),
`fewerPartitions` = "There are fewer partitions on the device than expected"
(line 150),
`differentTypes` = "The device partitions are of a different type to what was
expected" (line 152),
`diskTooSmall dyn` = "Disk is too small to accomodate partitions required
sizes (dyn)" (line 161).  Distinct constructors render to distinct strings. -/
inductive Msg where
  | shFailed (command : String)
  | creatingPartitionFailed
  | resizeFailed (num : ℕ)
  | moveOccupied (num : ℕ)
  | deletionFailed
  | morePartitions
  | fewerPartitions
  | differentTypes
  | diskTooSmall (dynamicPartitions : List (ℕ × ℤ))
deriving DecidableEq, Repr

/-- One committed mutation of the partition table or write to the raw device:
`copyData o n l` is the byte copy loop of `move_partition` (source lines
98-112, abstracted to its effect: `l` bytes moved from byte offset `o` to
byte offset `n`); `deletePart` / `createPart` / `resizePart` are the table
mutations, each committed right away in the source; `mkfsPart` / `resizeFs`
are the external `mkfs.*` / `resize2fs` invocations. -/
inductive Action where
  | copyData (oldStartB newStartB lengthB : ℤ)
  | deletePart (num : ℕ)
  | createPart (start stop : ℤ) (fscode : String)
  | mkfsPart (fstype : String) (num : ℕ)
  | resizePart (num : ℕ) (stop : ℤ)
  | resizeFs (num : ℕ)
deriving DecidableEq, Repr

/-- Run state: the current disk plus the trace of actions performed so far. -/
structure St where
  disk : Disk
  trace : List Action
deriving DecidableEq, Repr

/-- Result of running (part of) the script: normal completion, `die` (logs
critically and exits 1), the `ValueError` of `move_partition` line 78, the
`IndexError` of an out-of-range list subscript, or the `ZeroDivisionError` of
line 158 when there are no dynamic entries.  Every constructor carries the
state at the moment of termination. -/
inductive Outcome where
  | ok : St → Outcome
  | fatal : Msg → St → Outcome
  | valueError : St → Outcome
  | indexError : St → Outcome
  | zeroDivError : St → Outcome
deriving DecidableEq, Repr

/-- Sequencing that propagates every abnormal termination. -/
def Outcome.andThen (o : Outcome) (f : St → Outcome) : Outcome :=
  match o with
  | .ok s => f s
  | e => e

/-- Whether the run hit `die` (logged critically and exited 1). -/
def Outcome.isFatal : Outcome → Bool
  | .fatal _ _ => true
  | _ => false

/-- State of an outcome, whichever way the run ended. -/
def Outcome.state : Outcome → St
  | .ok s => s
  | .fatal _ s => s
  | .valueError s => s
  | .indexError s => s
  | .zeroDivError s => s

/-- Fallback used when the candidate scan below runs out of fuel (it never
does: there are only finitely many used numbers): one past the maximum used
number, which is certainly free. -/
def freshNumber (ps : List Partition) : ℕ :=
  (ps.map (·.number)).foldr max 0 + 1

/-- Smallest candidate slot number `≥ k` not used by any partition, searching
with fuel.  libparted assigns the lowest free slot number to a newly added
primary partition. -/
def lowestFreeFrom (ps : List Partition) (k : ℕ) : ℕ → ℕ
  | 0 => freshNumber ps
  | fuel + 1 => if ps.all (fun q => q.number ≠ k) then k else lowestFreeFrom ps (k + 1) fuel

/-- The slot number libparted gives a newly created primary partition: the
lowest unused number starting from 1. -/
def lowestFreeNumber (ps : List Partition) : ℕ :=
  lowestFreeFrom ps 1 (ps.length + 1)

/-- Insert a partition into the on-disk-order (by start sector) list. -/
def insertSorted (p : Partition) : List Partition → List Partition
  | [] => [p]
  | q :: rest => if p.start ≤ q.start then p :: q :: rest else q :: insertSorted p rest

/-- Remove the partition with the given slot number. -/
def deleteByNumber (num : ℕ) (ps : List Partition) : List Partition :=
  ps.filter fun q => q.number ≠ num

/-- Set the end sector of the partition with the given slot number. -/
def setStopByNumber (num : ℕ) (stop : ℤ) (ps : List Partition) : List Partition :=
  ps.map fun q => if q.number = num then { q with stop := stop } else q

/-- `create_partition(disk, start, end, fscode, fstype)` (source lines
49-62): add a partition with the exact geometry `[start, end]` and commit;
`addPartition` under an exact-geometry constraint succeeds iff the range lies
inside the device and collides with no committed partition, otherwise
`die('Creating partition failed')`.  When `fstype` is given, run
`mkfs.(fstype)` on the new partition (modelled as succeeding). -/
def create_partition (s : St) (start stop : ℤ) (fscode : String)
    (fstype : Option String) : Outcome :=
  if 0 ≤ start ∧ start ≤ stop ∧ stop < s.disk.length ∧
      ∀ q ∈ s.disk.partitions, stop < q.start ∨ q.stop < start then
    match fstype with
    | none =>
      .ok ⟨⟨s.disk.length, s.disk.sectorSize,
            insertSorted ⟨lowestFreeNumber s.disk.partitions, start, stop, fscode⟩
              s.disk.partitions⟩,
          s.trace ++ [.createPart start stop fscode]⟩
    | some t =>
      .ok ⟨⟨s.disk.length, s.disk.sectorSize,
            insertSorted ⟨lowestFreeNumber s.disk.partitions, start, stop, fscode⟩
              s.disk.partitions⟩,
          s.trace ++ [.createPart start stop fscode,
            .mkfsPart t (lowestFreeNumber s.disk.partitions)]⟩
  else .fatal .creatingPartitionFailed s

/-- `resize_partition(partition, end)` (source lines 64-73): keep the start
sector, set the end sector to `end` via `maximizePartition` under an
exact-geometry constraint (succeeds iff the new range is nonempty, inside the
device and collides with no other partition), commit, then grow the
filesystem with `resize2fs` (modelled as succeeding). -/
def resize_partition (s : St) (p : Partition) (stop : ℤ) : Outcome :=
  if p.start ≤ stop ∧ stop < s.disk.length ∧
      ∀ q ∈ s.disk.partitions, q.number = p.number ∨ stop < q.start ∨ q.stop < p.start then
    .ok ⟨⟨s.disk.length, s.disk.sectorSize, setStopByNumber p.number stop s.disk.partitions⟩,
        s.trace ++ [.resizePart p.number stop, .resizeFs p.number]⟩
  else .fatal (.resizeFailed p.number) s

/-- Body of `move_partition` after the bounds are derived (source lines
86-117): `die` if the destination range is not wholly inside one free region;
otherwise copy the partition's bytes to the destination, delete the old table
entry (checking the result, with the copy already performed) and recreate it
at the destination with the same filesystem code. -/
def move_partition_go (s : St) (p : Partition) (newStart newStop : ℤ) : Outcome :=
  if is_free_space s.disk newStart newStop then
    if s.disk.partitions.any (fun q => q.number = p.number) then
      create_partition
        ⟨⟨s.disk.length, s.disk.sectorSize, deleteByNumber p.number s.disk.partitions⟩,
          s.trace ++ [.copyData (p.start * s.disk.sectorSize) (newStart * s.disk.sectorSize)
              (p.getLength * s.disk.sectorSize), .deletePart p.number]⟩
        newStart newStop p.fsType none
    else
      .fatal .deletionFailed
        ⟨s.disk, s.trace ++ [.copyData (p.start * s.disk.sectorSize)
            (newStart * s.disk.sectorSize) (p.getLength * s.disk.sectorSize)]⟩
  else .fatal (.moveOccupied p.number) s

/-- `move_partition(partition, start, end)` (source lines 75-117): raise
`ValueError` unless exactly one of `start`/`end` is given; derive the missing
bound from `partition.getLength()` (note pyparted ends are inclusive, so
`start + getLength` is one past the sector that would preserve the length);
then run the move body. -/
def move_partition (s : St) (p : Partition) (start stop : Option ℤ) : Outcome :=
  match start, stop with
  | none, none => .valueError s
  | some _, some _ => .valueError s
  | some v, none => move_partition_go s p v (v + p.getLength)
  | none, some w => move_partition_go s p (w - p.getLength) w

/-- The destination range `move_partition` derives from a well-formed request
(source lines 81-84): the missing bound is start plus length, respectively
end minus length, of the partition being moved.  (The both-none case is
unreachable: such requests raise `ValueError` first.) -/
def moveDest (p : Partition) : Option ℤ → Option ℤ → Geometry
  | some v, _ => ⟨v, v + p.getLength⟩
  | none, some w => ⟨w - p.getLength, w⟩
  | none, none => ⟨0, -1⟩

/-- One row of `PART_TABLE` (source lines 135-141): expected filesystem
family, filesystem to create for a synthesized partition, and minimum size in
sectors (0 means fixed size, positive means dynamically expanded). -/
structure TemplateEntry where
  fs : String
  partfs : String
  min_size : ℤ
deriving DecidableEq, Repr

/-- `MIN_OS_PART_SIZE = int((4 * 1024**3) / sec_size)` (source line 131). -/
def MIN_OS_PART_SIZE (secSize : ℤ) : ℤ := pyIntTrueDiv (4 * 1024 ^ 3) secSize

/-- `PART_TABLE` (source lines 135-141), parameterized by the sector size
through `MIN_OS_PART_SIZE`. -/
def PART_TABLE (secSize : ℤ) : List TemplateEntry :=
  [ ⟨"fat", "fat32", 0⟩,
    ⟨"ext4", "ext2", MIN_OS_PART_SIZE secSize⟩,
    ⟨"ext4", "ext2", MIN_OS_PART_SIZE secSize⟩,
    ⟨"fat", "fat32", 0⟩ ]

/-- Normalization of an observed filesystem type to its family tag (source
line 145): any type starting with "fat" counts as "fat".  The
`startswith('fat')` test is expressed on the character list (the first three
characters are f, a, t), which is the same predicate. -/
def normType (t : String) : String := if t.data.take 3 = "fat".data then "fat" else t

/-- Layout validation (source lines 143-152): compare the normalized observed
filesystem types, positionally, against the template's expected families;
report a count mismatch as "more"/"fewer", a same-length mismatch as a type
difference; `none` means the layout is accepted. -/
def validateLayout (tbl : List TemplateEntry) (ps : List Partition) : Option Msg :=
  if (tbl.map fun e => e.fs).length < (ps.map fun p => normType p.fsType).length then
    some .morePartitions
  else if (ps.map fun p => normType p.fsType).length < (tbl.map fun e => e.fs).length then
    some .fewerPartitions
  else if (tbl.map fun e => e.fs) ≠ (ps.map fun p => normType p.fsType) then
    some .differentTypes
  else none

/-- `new_dynamic_part_size = int((free_space.getLength() + existing_parts_size)
/ len(dynamic_partitions))` (source line 158) - CPython float true division
truncated by `int()`. -/
def new_dynamic_part_size (freeLen existingSize : ℤ) (count : ℕ) : ℤ :=
  pyIntTrueDiv (freeLen + existingSize) (count : ℤ)

/-- The reconciliation loop (source lines 163-184) over the reversed
enumerated template.  Per entry: recompute free regions and stop when none
remain; take the last free region; fetch the partition at the entry's index;
skip the entry when the free region ends before the partition starts; for a
dynamic entry, relocate it to `free end - target` unless it is the anchor
(number not above `dynamic_part_nums[0]`), re-fetch it, and resize it to the
free region's end; for a fixed entry with free space strictly after it,
relocate it to the free region's end. -/
def reconcileLoop (dpn0 : ℕ) (target : ℤ) : List (ℕ × TemplateEntry) → St → Outcome
  | [], s => .ok s
  | (n, e) :: rest, s =>
    match s.disk.getFreeSpaceRegions.getLast? with
    | none => .ok s
    | some free_space =>
      match s.disk.partitions[n]? with
      | none => .indexError s
      | some existing_part =>
        if free_space.stop < existing_part.start then
          reconcileLoop dpn0 target rest s
        else if 0 < e.min_size then
          (if dpn0 < existing_part.number then
              move_partition s existing_part (some (free_space.stop - target)) none
            else .ok s).andThen fun s1 =>
            match s1.disk.partitions[n]? with
            | none => .indexError s1
            | some existing_part2 =>
              (resize_partition s1 existing_part2 free_space.stop).andThen fun s2 =>
                reconcileLoop dpn0 target rest s2
        else if existing_part.stop < free_space.start then
          (move_partition s existing_part none (some free_space.stop)).andThen fun s1 =>
            reconcileLoop dpn0 target rest s1
        else reconcileLoop dpn0 target rest s

/-- `dynamic_partitions = [(n, size) for n, (_, _, size) in
enumerate(PART_TABLE) if size > 0]` (source line 155). -/
def dynamicEntries (tbl : List TemplateEntry) : List (ℕ × ℤ) :=
  (tbl.enum.filter fun x => 0 < x.2.min_size).map fun x => (x.1, x.2.min_size)

/-- `dynamic_part_nums = [n + 1 for n, _ in dynamic_partitions]` (source line
156). -/
def dynamicNums (tbl : List TemplateEntry) : List ℕ :=
  (dynamicEntries tbl).map fun x => x.1 + 1

/-- `existing_parts_size = sum(p.getLength() for p in partitions if p.number
in dynamic_part_nums)` (source line 157). -/
def existingPartsSize (tbl : List TemplateEntry) (d : Disk) : ℤ :=
  ((d.partitions.filter fun p => p.number ∈ dynamicNums tbl).map
    fun p => p.getLength).sum

/-- The shared target size of line 158 for the given trailing free region. -/
def scriptTarget (tbl : List TemplateEntry) (free_space : Geometry) (d : Disk) : ℤ :=
  new_dynamic_part_size free_space.getLength (existingPartsSize tbl d)
    (dynamicEntries tbl).length

/-- The module-level script from the layout validation on (source lines
143-186), for a given template and initial disk: validate the layout; fetch
the last free region (`[-1]` raises `IndexError` when there are none);
collect the dynamic entries, their slot numbers and current total size;
compute the shared target size (`ZeroDivisionError` when there are no dynamic
entries); `die` when the target is below some dynamic entry's minimum; then
run the reconciliation loop over the reversed template. -/
def runScript (tbl : List TemplateEntry) (d : Disk) : Outcome :=
  match validateLayout tbl d.partitions with
  | some msg => .fatal msg ⟨d, []⟩
  | none =>
    match d.getFreeSpaceRegions.getLast? with
    | none => .indexError ⟨d, []⟩
    | some free_space =>
      if (dynamicEntries tbl).length = 0 then .zeroDivError ⟨d, []⟩
      else if (dynamicEntries tbl).any fun x => scriptTarget tbl free_space d < x.2 then
        .fatal (.diskTooSmall (dynamicEntries tbl)) ⟨d, []⟩
      else
        reconcileLoop ((dynamicNums tbl).headD 0) (scriptTarget tbl free_space d)
          tbl.enum.reverse ⟨d, []⟩

/-- The partition list is in on-disk order: start sectors ascending.
pyparted's `disk.partitions` always lists partitions this way, and every
mutation of the embedding preserves it. -/
def PartsSorted (ps : List Partition) : Prop :=
  List.Pairwise (fun p q => p.start ≤ q.start) ps

/-- The disk layout produced by the project's bootstrap script: four
partitions (fat, ext4, ext4, fat) laid out contiguously from sector 0 with
sizes `a`, `c`, `c`, `b`, numbered 1-4 in on-disk order, followed by the
trailing free space of the device. -/
def bootstrapDisk (devLen a b c : ℤ) : Disk :=
  { length := devLen, sectorSize := 512,
    partitions :=
      [ ⟨1, 0, a - 1, "fat32"⟩,
        ⟨2, a, a + c - 1, "ext4"⟩,
        ⟨3, a + c, a + 2 * c - 1, "ext4"⟩,
        ⟨4, a + 2 * c, a + 2 * c + b - 1, "fat32"⟩ ] }

/-!
### Correctness of the float-division model on the exactly-representable range

CPython divides two ints by rounding the exact quotient to binary64.  The
spec describes line 158 as an exact integer floor; that is only true while
the numerator stays within the 53-bit exactly-representable range, which the
following lemmas establish.
-/

theorem natLog2F_spec : ∀ fuel n : ℕ, 1 ≤ n → n ≤ fuel →
    2 ^ natLog2F fuel n ≤ n ∧ n < 2 ^ (natLog2F fuel n + 1) := by
  intro fuel
  induction fuel with
  | zero => intro n h1 h2; omega
  | succ f ih =>
    intro n h1 h2
    simp only [natLog2F]
    by_cases hn : n < 2
    · rw [if_pos hn]
      norm_num
      omega
    · rw [if_neg hn]
      obtain ⟨ihl, ihu⟩ := ih (n / 2) (by omega) (by omega)
      have hp1 : (2:ℕ) ^ (natLog2F f (n / 2) + 1) = 2 * 2 ^ natLog2F f (n / 2) := by ring
      have hp2 : (2:ℕ) ^ (natLog2F f (n / 2) + 1 + 1) = 2 * 2 ^ (natLog2F f (n / 2) + 1) := by
        ring
      constructor
      · rw [hp1]; omega
      · rw [hp2]; omega

theorem natLog2_spec {n : ℕ} (h : 1 ≤ n) :
    2 ^ natLog2 n ≤ n ∧ n < 2 ^ (natLog2 n + 1) :=
  natLog2F_spec n n h le_rfl

theorem rnd53_ge (p d : ℕ) : p / d ≤ rnd53 p d := by
  unfold rnd53
  split_ifs <;> omega

theorem rnd53_cases (p d : ℕ) :
    rnd53 p d = p / d ∨ (rnd53 p d = p / d + 1 ∧ d ≤ 2 * (p % d)) := by
  unfold rnd53
  split_ifs <;> omega

theorem rnd53_exact {p d : ℕ} (hd : 0 < d) (h : p % d = 0) : rnd53 p d = p / d := by
  unfold rnd53
  rw [h]
  simp [hd]

theorem two_pow_split {e k : ℕ} (h : e ≤ k) : 2 ^ (k - e) * 2 ^ e = 2 ^ k := by
  rw [← pow_add]
  congr 1
  omega

theorem floatExpPos_bracket {a b : ℕ} (hb : 1 ≤ b) (hba : b ≤ a) :
    b * 2 ^ floatExpPos a b ≤ a ∧ a < b * 2 ^ (floatExpPos a b + 1) := by
  have ha1 : 1 ≤ a := le_trans hb hba
  obtain ⟨h1l, h1u⟩ := natLog2_spec ha1
  obtain ⟨h2l, h2u⟩ := natLog2_spec hb
  unfold floatExpPos
  set k1 := natLog2 a with hk1
  set k2 := natLog2 b with hk2
  have hk : k2 ≤ k1 := by
    have h3 : (2:ℕ) ^ k2 < 2 ^ (k1 + 1) := by
      calc (2:ℕ) ^ k2 ≤ b := h2l
        _ ≤ a := hba
        _ < 2 ^ (k1 + 1) := h1u
    have := (Nat.pow_lt_pow_iff_right (by norm_num : (1:ℕ) < 2)).mp h3
    omega
  by_cases htest : b * 2 ^ (k1 - k2) ≤ a
  · rw [if_pos htest]
    refine ⟨htest, ?_⟩
    calc a < 2 ^ (k1 + 1) := h1u
      _ = 2 ^ k2 * 2 ^ (k1 - k2 + 1) := by rw [← pow_add]; congr 1; omega
      _ ≤ b * 2 ^ (k1 - k2 + 1) := Nat.mul_le_mul_right _ h2l
  · rw [if_neg htest]
    push_neg at htest
    have hc1 : 1 ≤ k1 - k2 := by
      by_contra hc
      push_neg at hc
      have h0 : k1 - k2 = 0 := by omega
      rw [h0, pow_zero, mul_one] at htest
      omega
    constructor
    · have : b * 2 ^ (k1 - k2 - 1) < 2 ^ (k2 + 1) * 2 ^ (k1 - k2 - 1) :=
        (Nat.mul_lt_mul_right (by positivity)).mpr h2u
      have h4 : (2:ℕ) ^ (k2 + 1) * 2 ^ (k1 - k2 - 1) = 2 ^ k1 := by
        rw [← pow_add]; congr 1; omega
      omega
    · rw [show k1 - k2 - 1 + 1 = k1 - k2 by omega]
      exact htest

theorem floatExpNeg_bracket {a b : ℕ} (ha : 1 ≤ a) (hab : a < b) :
    1 ≤ floatExpNeg a b ∧ b ≤ a * 2 ^ floatExpNeg a b ∧ a * 2 ^ floatExpNeg a b < 2 * b := by
  obtain ⟨h1l, h1u⟩ := natLog2_spec ha
  obtain ⟨h2l, h2u⟩ := natLog2_spec (le_trans ha (le_of_lt hab))
  unfold floatExpNeg
  set k1 := natLog2 a with hk1
  set k2 := natLog2 b with hk2
  have hk : k1 ≤ k2 := by
    have h3 : (2:ℕ) ^ k1 < 2 ^ (k2 + 1) := by
      calc (2:ℕ) ^ k1 ≤ a := h1l
        _ < b := hab
        _ < 2 ^ (k2 + 1) := h2u
    have := (Nat.pow_lt_pow_iff_right (by norm_num : (1:ℕ) < 2)).mp h3
    omega
  by_cases htest : b ≤ a * 2 ^ (k2 - k1)
  · rw [if_pos htest]
    have hc1 : 1 ≤ k2 - k1 := by
      by_contra hc
      push_neg at hc
      have h0 : k2 - k1 = 0 := by omega
      rw [h0, pow_zero, mul_one] at htest
      omega
    refine ⟨hc1, htest, ?_⟩
    have h3 : a * 2 ^ (k2 - k1) < 2 ^ (k1 + 1) * 2 ^ (k2 - k1) :=
      (Nat.mul_lt_mul_right (by positivity)).mpr h1u
    have h4 : (2:ℕ) ^ (k1 + 1) * 2 ^ (k2 - k1) = 2 * 2 ^ k2 := by
      rw [← pow_add]
      rw [show k1 + 1 + (k2 - k1) = k2 + 1 by omega]
      ring
    have h5 : 2 * 2 ^ k2 ≤ 2 * b := Nat.mul_le_mul_left _ h2l
    omega
  · rw [if_neg htest]
    push_neg at htest
    refine ⟨by omega, ?_, ?_⟩
    · have h3 : b < 2 ^ (k2 + 1) := h2u
      have h4 : (2:ℕ) ^ (k2 + 1) = 2 ^ k1 * 2 ^ (k2 - k1 + 1) := by
        rw [← pow_add]; congr 1; omega
      have h5 : (2:ℕ) ^ k1 * 2 ^ (k2 - k1 + 1) ≤ a * 2 ^ (k2 - k1 + 1) :=
        Nat.mul_le_mul_right _ h1l
      omega
    · have h3 : a * 2 ^ (k2 - k1 + 1) = 2 * (a * 2 ^ (k2 - k1)) := by ring
      omega

theorem pyFloorFloatDivPos_eq (a b e : ℕ) (ha : a ≤ 2 ^ 53) (hb : 1 ≤ b)
    (hE1 : b * 2 ^ e ≤ a) (hE2 : a < b * 2 ^ (e + 1)) :
    pyFloorFloatDivPos a b e = a / b := by
  have he53 : e ≤ 53 := by
    by_contra hcon
    push_neg at hcon
    have h1 : (2:ℕ) ^ 54 ≤ 2 ^ e := Nat.pow_le_pow_right (by norm_num) (by omega)
    have h2 : (2:ℕ) ^ e ≤ b * 2 ^ e := Nat.le_mul_of_pos_left _ hb
    have h3 : (2:ℕ) ^ 54 ≤ a := le_trans h1 (le_trans h2 hE1)
    norm_num at h3 ha
    omega
  unfold pyFloorFloatDivPos
  by_cases h52 : 52 ≤ e
  · rw [if_pos h52]
    interval_cases e
    · -- e = 52, so the quotient grid spacing is 1 and b is 1 or 2
      have hble : b ≤ 2 := by
        norm_num at hE1 ha
        omega
      interval_cases b
      · have hmod : a * 2 ^ 52 % (1 * 2 ^ 52) = 0 := by
          rw [one_mul]
          exact Nat.mul_mod_left _ _
        rw [rnd53_exact (by positivity) hmod, one_mul,
          Nat.mul_div_cancel _ (by positivity)]
        norm_num
      · have ha2 : a = 2 ^ 53 := by
          norm_num at hE1 ha
          omega
        subst ha2
        decide
    · -- e = 53: forces b = 1 and a = 2 ^ 53
      have hb1 : b = 1 := by
        norm_num at hE1 ha
        omega
      subst hb1
      have ha2 : a = 2 ^ 53 := by
        norm_num at hE1 ha
        omega
      subst ha2
      decide
  · push_neg at h52
    rw [if_neg (by omega)]
    set s := 2 ^ (52 - e) with hs
    have hs2 : 2 ≤ s := by
      rw [hs]
      calc (2:ℕ) = 2 ^ 1 := (pow_one 2).symm
        _ ≤ 2 ^ (52 - e) := Nat.pow_le_pow_right (by norm_num) (by omega)
    have hsplit : s * 2 ^ e = 2 ^ 52 := two_pow_split (by omega)
    have hepos : (0:ℕ) < 2 ^ e := by positivity
    have hkey : a * 2 ^ 52 = a * s * 2 ^ e := by rw [mul_assoc, hsplit]
    have hm : a * 2 ^ 52 / (b * 2 ^ e) = a * s / b := by
      rw [hkey, Nat.mul_div_mul_right _ _ hepos]
    have hr : a * 2 ^ 52 % (b * 2 ^ e) = a * s % b * 2 ^ e := by
      rw [hkey, Nat.mul_mod_mul_right]
    set q := a / b with hq
    set r := a % b with hrdef
    have hqr : b * q + r = a := Nat.div_add_mod a b
    have hrb : r < b := Nat.mod_lt _ (by omega)
    have hsum : a * s = r * s + b * (q * s) := by
      rw [← hqr]; ring
    have hasd : a * s / b = r * s / b + q * s := by
      rw [hsum, Nat.add_mul_div_left _ _ (by omega)]
    have hasm : a * s % b = r * s % b := by
      rw [hsum, Nat.add_mul_mod_self_left]
    obtain ⟨u, hu⟩ : ∃ u, r * s / b = u := ⟨_, rfl⟩
    obtain ⟨t, ht⟩ : ∃ t, r * s % b = t := ⟨_, rfl⟩
    rw [hu] at hasd
    have hult : u < s := by
      rw [← hu, Nat.div_lt_iff_lt_mul (by omega : 0 < b)]
      calc r * s < b * s := (Nat.mul_lt_mul_right (by omega)).mpr hrb
        _ = s * b := mul_comm b s
    apply Nat.div_eq_of_lt_le
    · calc q * s ≤ u + q * s := Nat.le_add_left _ _
        _ = a * 2 ^ 52 / (b * 2 ^ e) := by rw [hm, hasd]
        _ ≤ rnd53 (a * 2 ^ 52) (b * 2 ^ e) := rnd53_ge _ _
    · have hq1s : (q + 1) * s = q * s + s := by ring
      rcases rnd53_cases (a * 2 ^ 52) (b * 2 ^ e) with hn | ⟨hn, hup⟩
      · rw [hn, hm, hasd, hq1s, Nat.add_comm u (q * s)]
        exact Nat.add_lt_add_left hult _
      · rw [hn, hm, hasd, hq1s]
        rw [hr, hasm, ht] at hup
        have htb : b ≤ 2 * t := by
          have h6 : b * 2 ^ e ≤ 2 * t * 2 ^ e := by
            calc b * 2 ^ e ≤ 2 * (t * 2 ^ e) := hup
              _ = 2 * t * 2 ^ e := by ring
          exact Nat.le_of_mul_le_mul_right h6 hepos
        by_cases huu : u + 1 < s
        · have h7 : u + q * s + 1 = q * s + (u + 1) := by ring
          rw [h7]
          exact Nat.add_lt_add_left huu _
        · -- u = s - 1: show the round-up cannot happen here
          exfalso
          have hus : u + 1 = s := by omega
          have hut : b * u + t = r * s := by
            rw [← hu, ← ht]
            exact Nat.div_add_mod (r * s) b
          have htltb : t < b := by
            rw [← ht]
            exact Nat.mod_lt _ (by omega)
          have hr1 : 1 ≤ r := by
            by_contra hr0
            push_neg at hr0
            have hrz : r = 0 := by omega
            rw [hrz, zero_mul] at hut
            have hbu : b * u = 0 := by omega
            rcases Nat.mul_eq_zero.mp hbu with h | h <;> omega
          have hts : (t:ℤ) ≤ (b:ℤ) - s := by
            have h1 : ((r:ℤ) + 1) * s ≤ (b:ℤ) * s := by
              apply mul_le_mul_of_nonneg_right _ (by positivity)
              exact_mod_cast hrb
            have h2 : (b:ℤ) * u + t = (r:ℤ) * s := by exact_mod_cast hut
            have h3 : (u:ℤ) + 1 = (s:ℤ) := by exact_mod_cast hus
            nlinarith [h1, h2, h3]
          have hb2s : 2 * s ≤ b := by
            have h4 : (b:ℤ) ≤ 2 * t := by exact_mod_cast htb
            have h5 : (2:ℤ) * s ≤ b := by linarith [hts, h4]
            exact_mod_cast h5
          have hps : 2 * s * 2 ^ e = 2 ^ 53 := by
            have h7 : 2 * s * 2 ^ e = 2 * (s * 2 ^ e) := by ring
            rw [h7, hsplit]
            norm_num
          have hbs2 : b ≤ 2 * s := by
            apply Nat.le_of_mul_le_mul_right _ hepos
            rw [hps]
            exact le_trans hE1 ha
          have hbeq : b = 2 * s := by omega
          have ha53 : a = 2 ^ 53 := by
            have h8 : 2 ^ 53 ≤ a := by
              rw [← hps, ← hbeq]
              exact hE1
            omega
          have hdvd : b ∣ a := by
            rw [hbeq, ha53, hs]
            have h9 : 2 * 2 ^ (52 - e) = 2 ^ (53 - e) := by
              rw [← pow_succ']
              congr 1
              omega
            rw [h9]
            exact pow_dvd_pow 2 (by omega)
          have hr0 : r = 0 := by
            rw [hrdef]
            exact Nat.mod_eq_zero_of_dvd hdvd
          omega

theorem pyFloorFloatDivNeg_eq (a b j : ℕ) (ha : a ≤ 2 ^ 53) (hab : a < b)
    (hj1 : 1 ≤ j) (hJ1 : b ≤ a * 2 ^ j) (hJ2 : a * 2 ^ j < 2 * b) :
    rnd53 (a * 2 ^ (52 + j)) b / 2 ^ (52 + j) = a / b := by
  have hb1 : 1 ≤ b := by omega
  rw [Nat.div_eq_of_lt hab]
  apply Nat.div_eq_of_lt
  have hmlt : a * 2 ^ (52 + j) / b < 2 ^ 53 := by
    rw [Nat.div_lt_iff_lt_mul (by omega : 0 < b)]
    calc a * 2 ^ (52 + j) = a * 2 ^ j * 2 ^ 52 := by
          rw [mul_assoc, ← pow_add]
          congr 2
          omega
      _ < 2 * b * 2 ^ 52 := (Nat.mul_lt_mul_right (by positivity)).mpr hJ2
      _ = 2 ^ 53 * b := by ring
  by_cases hj2 : 2 ≤ j
  · have h54 : (2:ℕ) ^ 54 ≤ 2 ^ (52 + j) := Nat.pow_le_pow_right (by norm_num) (by omega)
    have h5354 : (2:ℕ) ^ 53 < 2 ^ 54 := by norm_num
    rcases rnd53_cases (a * 2 ^ (52 + j)) b with hn | ⟨hn, _⟩ <;> rw [hn] <;> omega
  · have hj : j = 1 := by omega
    subst hj
    rcases rnd53_cases (a * 2 ^ (52 + 1)) b with hn | ⟨hn, hup⟩
    · rw [hn]
      norm_num at hmlt ⊢
      omega
    · rw [hn]
      by_cases hms : a * 2 ^ (52 + 1) / b + 1 < 2 ^ (52 + 1)
      · omega
      · exfalso
        have hdm : b * (a * 2 ^ (52 + 1) / b) + a * 2 ^ (52 + 1) % b = a * 2 ^ (52 + 1) :=
          Nat.div_add_mod _ _
        have hm1 : a * 2 ^ (52 + 1) / b = 2 ^ 53 - 1 := by
          norm_num at hmlt hms ⊢
          omega
        rw [hm1] at hdm
        norm_num at hdm hup ha
        omega

theorem pyFloorFloatDiv_eq_div {a b : ℕ} (ha : a ≤ 2 ^ 53) (hb : 1 ≤ b) :
    pyFloorFloatDiv a b = a / b := by
  unfold pyFloorFloatDiv
  rcases Nat.eq_zero_or_pos a with a0 | a0
  · rw [if_pos (Or.inl a0), a0, Nat.zero_div]
  rw [if_neg (by omega)]
  by_cases hba : b ≤ a
  · rw [if_pos hba]
    obtain ⟨h1, h2⟩ := floatExpPos_bracket hb hba
    exact pyFloorFloatDivPos_eq a b _ ha hb h1 h2
  · rw [if_neg hba]
    push_neg at hba
    obtain ⟨h0, h1, h2⟩ := floatExpNeg_bracket a0 hba
    exact pyFloorFloatDivNeg_eq a b _ ha hba h0 h1 h2

/-- C4 (counterexample).  The uniform target size computed by line 158 is
not always the exact integer floor of
(free space + sum of dynamic sizes) / count: with two dynamic entries of
4503599627370496 = 2^52 sectors each and 3 sectors of trailing free space,
the numerator is 2^53 + 3 and CPython's float division rounds the quotient
up to the next representable value, so the code returns 4503599627370498
while the floor is 4503599627370497. -/
theorem C4_allocator_counterexample :
    new_dynamic_part_size 3 (4503599627370496 + 4503599627370496) 2 ≠
      ⌊((3 + (4503599627370496 + 4503599627370496) : ℤ) : ℚ) / ((2 : ℕ) : ℚ)⌋ := by
  rw [Rat.floor_intCast_div_natCast]
  decide

/-- C4 (amended).  For every count N of dynamic entries with N at least 1,
every nonnegative free space F and nonnegative total current size C of the
dynamic entries, as long as F + C is at most 2^53 (so that the numerator is
exactly representable in binary64), the computed uniform target size
new_dynamic_part_size F C N equals the exact integer floor of (F + C) / N.
Beyond 2^53 the float rounding of line 158 can move the result off the floor
(see the counterexample). -/
theorem C4_allocator_floor_amended (freeLen existingSize : ℤ) (count : ℕ)
    (hf : 0 ≤ freeLen) (he : 0 ≤ existingSize) (hc : 1 ≤ count)
    (hbound : freeLen + existingSize ≤ 2 ^ 53) :
    new_dynamic_part_size freeLen existingSize count =
      ⌊((freeLen + existingSize : ℤ) : ℚ) / ((count : ℕ) : ℚ)⌋ := by
  unfold new_dynamic_part_size pyIntTrueDiv
  rw [if_pos (by omega : (0:ℤ) ≤ freeLen + existingSize)]
  have htn : ((count : ℤ)).toNat = count := by omega
  rw [htn]
  rw [pyFloorFloatDiv_eq_div (by omega) hc]
  rw [Rat.floor_intCast_div_natCast]
  rw [Int.ofNat_tdiv]
  rw [Int.toNat_of_nonneg (by omega : (0:ℤ) ≤ freeLen + existingSize)]
  exact Int.tdiv_eq_ediv (by omega) (by positivity)

/-- C4 witness: the amended theorem applied at the concrete scenario values
(free space 10813184 sectors, dynamic sizes summing to 20777216 sectors, two
dynamic entries), where the target is 15795200. -/
theorem C4_allocator_floor_amended_witness :
    (0:ℤ) ≤ 10813184 ∧ (0:ℤ) ≤ 20777216 ∧ 1 ≤ 2 ∧
      (10813184 + 20777216 : ℤ) ≤ 2 ^ 53 ∧
      new_dynamic_part_size 10813184 20777216 2 =
        ⌊((10813184 + 20777216 : ℤ) : ℚ) / ((2 : ℕ) : ℚ)⌋ :=
  ⟨by norm_num, by norm_num, by norm_num, by norm_num,
    C4_allocator_floor_amended 10813184 20777216 2 (by norm_num) (by norm_num)
      (by norm_num) (by norm_num)⟩

/-!
### Free-space regions never intersect committed partitions
-/

theorem freeRegionsAux_start_ge (devLen : ℤ) (ps : List Partition) :
    ∀ cur, ∀ g ∈ freeRegionsAux devLen cur ps, cur ≤ g.start := by
  induction ps with
  | nil =>
    intro cur g hg
    simp only [freeRegionsAux] at hg
    split_ifs at hg with h
    · simp only [List.mem_singleton] at hg
      subst hg
      exact le_rfl
    · simp at hg
  | cons q rest ih =>
    intro cur g hg
    simp only [freeRegionsAux, List.mem_append] at hg
    rcases hg with hg | hg
    · split_ifs at hg with h
      · simp only [List.mem_singleton] at hg
        subst hg
        exact le_rfl
      · simp at hg
    · exact le_trans (le_max_left _ _) (ih (max cur (q.stop + 1)) g hg)

theorem freeRegionsAux_disjoint (devLen : ℤ) (ps : List Partition) :
    ∀ cur, PartsSorted ps →
      ∀ g ∈ freeRegionsAux devLen cur ps, ∀ p ∈ ps,
        g.stop < p.start ∨ p.stop < g.start := by
  induction ps with
  | nil =>
    intro cur _ g _ p hp
    simp at hp
  | cons q rest ih =>
    intro cur hsort g hg p hp
    obtain ⟨hq, hrest⟩ := List.pairwise_cons.mp hsort
    simp only [freeRegionsAux, List.mem_append] at hg
    rcases hg with hg | hg
    · split_ifs at hg with hcur
      · simp only [List.mem_singleton] at hg
        subst hg
        rcases List.mem_cons.mp hp with hpq | hpr
        · subst hpq
          left
          simp only []
          omega
        · left
          have := hq p hpr
          simp only []
          omega
      · simp at hg
    · have hstart := freeRegionsAux_start_ge devLen rest (max cur (q.stop + 1)) g hg
      rcases List.mem_cons.mp hp with hpq | hpr
      · subst hpq
        right
        omega
      · exact ih (max cur (q.stop + 1)) hrest g hg p hpr

theorem is_free_space_eq_false_of_overlap {d : Disk} {s e : ℤ}
    (hsort : PartsSorted d.partitions)
    (hov : ∃ p ∈ d.partitions, ∃ x : ℤ, s ≤ x ∧ x ≤ e ∧ p.start ≤ x ∧ x ≤ p.stop) :
    is_free_space d s e = false := by
  unfold is_free_space
  rw [List.any_eq_false]
  intro g hg
  obtain ⟨p, hp, x, hx1, hx2, hx3, hx4⟩ := hov
  have hdisj := freeRegionsAux_disjoint d.length d.partitions 0 hsort g hg p hp
  simp only [Bool.and_eq_true, decide_eq_true_eq, not_and]
  intro h1 h2
  omega

/-- C3.  Whenever the destination range that a move request derives
intersects any currently committed partition's range, the move dies with the
distinct occupied-space message before anything happens: the returned state
is exactly the input state, so no byte has been copied and no table entry
touched.  The second conjunct records that the message differs from every
other message the program can die with. -/
theorem C3_move_rejects_occupied (s : St) (p : Partition) (start stop : Option ℤ)
    (hsort : PartsSorted s.disk.partitions)
    (hone : start.isSome ≠ stop.isSome)
    (hov : ∃ q ∈ s.disk.partitions, ∃ x : ℤ,
      (moveDest p start stop).start ≤ x ∧ x ≤ (moveDest p start stop).stop ∧
      q.start ≤ x ∧ x ≤ q.stop) :
    move_partition s p start stop = .fatal (.moveOccupied p.number) s ∧
      (Msg.moveOccupied p.number ≠ .creatingPartitionFailed ∧
        Msg.moveOccupied p.number ≠ .deletionFailed ∧
        (∀ k, Msg.moveOccupied p.number ≠ .resizeFailed k) ∧
        (∀ dyn, Msg.moveOccupied p.number ≠ .diskTooSmall dyn) ∧
        Msg.moveOccupied p.number ≠ .morePartitions ∧
        Msg.moveOccupied p.number ≠ .fewerPartitions ∧
        Msg.moveOccupied p.number ≠ .differentTypes ∧
        (∀ c, Msg.moveOccupied p.number ≠ .shFailed c)) := by
  refine ⟨?_, by simp, by simp, by simp, by simp, by simp, by simp, by simp, by simp⟩
  match start, stop with
  | none, none => simp at hone
  | some _, some _ => simp at hone
  | some v, none =>
    have hfree : is_free_space s.disk v (v + p.getLength) = false :=
      is_free_space_eq_false_of_overlap hsort (by simpa [moveDest] using hov)
    show move_partition_go s p v (v + p.getLength) = _
    unfold move_partition_go
    rw [hfree]
    simp
  | none, some w =>
    have hfree : is_free_space s.disk (w - p.getLength) w = false :=
      is_free_space_eq_false_of_overlap hsort (by simpa [moveDest] using hov)
    show move_partition_go s p (w - p.getLength) w = _
    unfold move_partition_go
    rw [hfree]
    simp

/-- C3 witness: on a 1000-sector disk with partitions 1 and 2, moving
partition 1 to start 150 derives destination sectors 150-250, which
intersect partition 2 (sectors 100-199 are its neighbour... here partition 2
occupies 300-399 and the destination hits it at sector 300); the move dies
with the occupied-space message and the state is untouched. -/
theorem C3_move_rejects_occupied_witness :
    PartsSorted [⟨1, 0, 99, "ext4"⟩, ⟨2, 300, 399, "ext4"⟩] ∧
      move_partition
        ⟨⟨1000, 512, [⟨1, 0, 99, "ext4"⟩, ⟨2, 300, 399, "ext4"⟩]⟩, []⟩
        ⟨1, 0, 99, "ext4"⟩ (some 250) none =
        .fatal (.moveOccupied 1)
          ⟨⟨1000, 512, [⟨1, 0, 99, "ext4"⟩, ⟨2, 300, 399, "ext4"⟩]⟩, []⟩ := by
  constructor
  · unfold PartsSorted
    decide
  · exact (C3_move_rejects_occupied
      ⟨⟨1000, 512, [⟨1, 0, 99, "ext4"⟩, ⟨2, 300, 399, "ext4"⟩]⟩, []⟩
      ⟨1, 0, 99, "ext4"⟩ (some 250) none
      (by unfold PartsSorted; decide)
      (by decide)
      ⟨⟨2, 300, 399, "ext4"⟩, by decide, 320, by decide, by decide, by decide,
        by decide⟩).1

/-- C10.  A move request with both bounds given, or with neither given,
raises `ValueError` (a distinct outcome from the logged fatal exits of
`die`), and the returned state is exactly the input state: no free-space
check result is acted on, no byte is copied, and no table entry changes. -/
theorem C10_value_error (s : St) (p : Partition) (start stop : Option ℤ)
    (h : (start = none ∧ stop = none) ∨ (start ≠ none ∧ stop ≠ none)) :
    move_partition s p start stop = .valueError s := by
  match start, stop with
  | none, none => rfl
  | some _, some _ => rfl
  | some v, none => simp at h
  | none, some w => simp at h

/-!
### Validation (C6) and the eager sizing check (C5)
-/

/-- C6.  Layout validation accepts exactly when the normalized observed
family tags agree positionally with the template (so it fails iff the counts
differ or some positional family differs); count mismatches die with the
distinct more/fewer messages and a same-length tag mismatch with the
type-difference message, and in each failing case the script terminates with
the initial disk and an empty action trace - no table mutation has been
performed.  Validation itself returns only an optional message, so an
accepted layout produces no partial result. -/
theorem C6_validation (tbl : List TemplateEntry) (d : Disk) :
    (validateLayout tbl d.partitions = none ↔
      d.partitions.map (fun p => normType p.fsType) = tbl.map (fun e => e.fs)) ∧
    (tbl.length < d.partitions.length →
      runScript tbl d = .fatal .morePartitions ⟨d, []⟩) ∧
    (d.partitions.length < tbl.length →
      runScript tbl d = .fatal .fewerPartitions ⟨d, []⟩) ∧
    (d.partitions.length = tbl.length →
      d.partitions.map (fun p => normType p.fsType) ≠ tbl.map (fun e => e.fs) →
      runScript tbl d = .fatal .differentTypes ⟨d, []⟩) := by
  refine ⟨?_, ?_, ?_, ?_⟩
  · unfold validateLayout
    split_ifs with h1 h2 h3
    · constructor
      · intro hcon
        exact absurd hcon (by simp)
      · intro heq
        have := congrArg List.length heq
        simp only [List.length_map] at this h1
        omega
    · constructor
      · intro hcon
        exact absurd hcon (by simp)
      · intro heq
        have := congrArg List.length heq
        simp only [List.length_map] at this h2
        omega
    · constructor
      · intro hcon
        exact absurd hcon (by simp)
      · intro heq
        exact absurd heq.symm h3
    · push_neg at h3
      exact iff_of_true rfl h3.symm
  · intro hlen
    have hv : validateLayout tbl d.partitions = some .morePartitions := by
      unfold validateLayout
      rw [if_pos (by simp only [List.length_map]; omega)]
    unfold runScript
    rw [hv]
  · intro hlen
    have hv : validateLayout tbl d.partitions = some .fewerPartitions := by
      unfold validateLayout
      rw [if_neg (by simp only [List.length_map]; omega),
        if_pos (by simp only [List.length_map]; omega)]
    unfold runScript
    rw [hv]
  · intro hlen hne
    have hv : validateLayout tbl d.partitions = some .differentTypes := by
      unfold validateLayout
      rw [if_neg (by simp only [List.length_map]; omega),
        if_neg (by simp only [List.length_map]; omega),
        if_pos (fun heq => hne heq.symm)]
    unfold runScript
    rw [hv]

/-- C6 witness: the theorem applied to the concrete template with a
three-partition disk (fewer than expected) and to its acceptance clause. -/
theorem C6_validation_witness :
    ([⟨1, 0, 9, "fat16"⟩, ⟨2, 10, 19, "ext4"⟩, ⟨3, 20, 29, "ext4"⟩] : List Partition).length <
        (PART_TABLE 512).length ∧
      runScript (PART_TABLE 512)
          ⟨1000, 512, [⟨1, 0, 9, "fat16"⟩, ⟨2, 10, 19, "ext4"⟩, ⟨3, 20, 29, "ext4"⟩]⟩ =
        .fatal .fewerPartitions
          ⟨⟨1000, 512, [⟨1, 0, 9, "fat16"⟩, ⟨2, 10, 19, "ext4"⟩, ⟨3, 20, 29, "ext4"⟩]⟩, []⟩ :=
  ⟨by decide,
    (C6_validation (PART_TABLE 512)
        ⟨1000, 512, [⟨1, 0, 9, "fat16"⟩, ⟨2, 10, 19, "ext4"⟩, ⟨3, 20, 29, "ext4"⟩]⟩).2.2.1
      (by decide)⟩

theorem Outcome.andThen_fatal {o : Outcome} {f : St → Outcome} {m : Msg} {s' : St}
    (h : o.andThen f = .fatal m s') :
    o = .fatal m s' ∨ ∃ s1, o = .ok s1 ∧ f s1 = .fatal m s' := by
  cases o with
  | ok s1 => exact Or.inr ⟨s1, rfl, h⟩
  | fatal m2 s2 => exact Or.inl h
  | valueError s2 => simp [Outcome.andThen] at h
  | indexError s2 => simp [Outcome.andThen] at h
  | zeroDivError s2 => simp [Outcome.andThen] at h

theorem create_partition_fatal {s : St} {a b : ℤ} {fc : String} {ft : Option String}
    {m : Msg} {s' : St} (h : create_partition s a b fc ft = .fatal m s') :
    m = .creatingPartitionFailed := by
  unfold create_partition at h
  split_ifs at h
  · cases ft <;> simp at h
  · simp only [Outcome.fatal.injEq] at h
    exact h.1.symm

theorem resize_partition_fatal {s : St} {p : Partition} {b : ℤ} {m : Msg} {s' : St}
    (h : resize_partition s p b = .fatal m s') : m = .resizeFailed p.number := by
  unfold resize_partition at h
  split_ifs at h
  simp only [Outcome.fatal.injEq] at h
  exact h.1.symm

theorem move_partition_go_fatal {s : St} {p : Partition} {a b : ℤ} {m : Msg} {s' : St}
    (h : move_partition_go s p a b = .fatal m s') :
    m = .moveOccupied p.number ∨ m = .deletionFailed ∨ m = .creatingPartitionFailed := by
  unfold move_partition_go at h
  split_ifs at h
  · exact Or.inr (Or.inr (create_partition_fatal h))
  · simp only [Outcome.fatal.injEq] at h
    exact Or.inr (Or.inl h.1.symm)
  · simp only [Outcome.fatal.injEq] at h
    exact Or.inl h.1.symm

theorem move_partition_fatal {s : St} {p : Partition} {so eo : Option ℤ} {m : Msg} {s' : St}
    (h : move_partition s p so eo = .fatal m s') :
    m = .moveOccupied p.number ∨ m = .deletionFailed ∨ m = .creatingPartitionFailed := by
  match so, eo with
  | none, none => simp [move_partition] at h
  | some _, some _ => simp [move_partition] at h
  | some v, none => exact move_partition_go_fatal h
  | none, some w => exact move_partition_go_fatal h

/-- Every fatal exit produced inside the reconciliation loop carries one of
the loop's own messages; in particular the eager sizing message of line 161
can never originate from the loop. -/
theorem reconcileLoop_fatal {dpn0 : ℕ} {target : ℤ} :
    ∀ (entries : List (ℕ × TemplateEntry)) (s : St) (m : Msg) (s' : St),
      reconcileLoop dpn0 target entries s = .fatal m s' →
      (∃ k, m = .moveOccupied k) ∨ m = .deletionFailed ∨ m = .creatingPartitionFailed ∨
        ∃ k, m = .resizeFailed k := by
  intro entries
  induction entries with
  | nil =>
    intro s m s' h
    simp [reconcileLoop] at h
  | cons he rest ih =>
    intro s m s' h
    obtain ⟨n, e⟩ := he
    rw [reconcileLoop] at h
    split at h
    · simp at h
    · split at h
      · simp at h
      · split_ifs at h
        · exact ih s m s' h
        · -- dynamic entry, not the anchor: relocate then resize then recurse
          rcases Outcome.andThen_fatal h with hmv | ⟨s1, hs1, hrest⟩
          · rcases move_partition_fatal hmv with hk | hk | hk
            · exact Or.inl ⟨_, hk⟩
            · exact Or.inr (Or.inl hk)
            · exact Or.inr (Or.inr (Or.inl hk))
          · split at hrest
            · simp at hrest
            · rcases Outcome.andThen_fatal hrest with hrz | ⟨s2, hs2, hloop⟩
              · exact Or.inr (Or.inr (Or.inr ⟨_, resize_partition_fatal hrz⟩))
              · exact ih s2 m s' hloop
        · -- dynamic entry, anchor: resize in place then recurse
          rcases Outcome.andThen_fatal h with hmv | ⟨s1, hs1, hrest⟩
          · simp at hmv
          · split at hrest
            · simp at hrest
            · rcases Outcome.andThen_fatal hrest with hrz | ⟨s2, hs2, hloop⟩
              · exact Or.inr (Or.inr (Or.inr ⟨_, resize_partition_fatal hrz⟩))
              · exact ih s2 m s' hloop
        · -- fixed entry with free space after it: relocate then recurse
          rcases Outcome.andThen_fatal h with hmv | ⟨s1, hs1, hloop⟩
          · rcases move_partition_fatal hmv with hk | hk | hk
            · exact Or.inl ⟨_, hk⟩
            · exact Or.inr (Or.inl hk)
            · exact Or.inr (Or.inr (Or.inl hk))
          · exact ih s1 m s' hloop
        · exact ih s m s' h

/-- C5.  With the layout validated, a trailing free region present and at
least one dynamic entry (the presuppositions under which line 158 computes a
target at all), the run dies with the disk-too-small message - and with the
initial disk and an empty action trace, i.e. before any partition-table
mutation - if and only if the computed target is strictly below some dynamic
entry's minimum size.  The failure happens before the reconciliation loop:
the loop can only die with its own, different messages. -/
theorem C5_sizing_check (tbl : List TemplateEntry) (d : Disk) (free_space : Geometry)
    (hval : validateLayout tbl d.partitions = none)
    (hfree : d.getFreeSpaceRegions.getLast? = some free_space)
    (hdyn : (dynamicEntries tbl).length ≠ 0) :
    runScript tbl d = .fatal (.diskTooSmall (dynamicEntries tbl)) ⟨d, []⟩ ↔
      ∃ x ∈ dynamicEntries tbl, scriptTarget tbl free_space d < x.2 := by
  unfold runScript
  simp only [hval, hfree]
  rw [if_neg hdyn]
  by_cases hany : (dynamicEntries tbl).any fun x => scriptTarget tbl free_space d < x.2
  · rw [if_pos hany]
    simp only [List.any_eq_true, decide_eq_true_eq] at hany
    exact iff_of_true rfl hany
  · rw [if_neg hany]
    constructor
    · intro h
      rcases reconcileLoop_fatal _ _ _ _ h with ⟨k, hk⟩ | hk | hk | ⟨k, hk⟩ <;> simp at hk
    · intro hex
      exfalso
      apply hany
      simp only [List.any_eq_true, decide_eq_true_eq]
      exact hex

/-- C5 witness: a small disk whose layout matches the template but whose
target (295200 sectors) is below the 8388608-sector minimum dies with the
disk-too-small message and an untouched table. -/
theorem C5_sizing_check_witness :
    validateLayout (PART_TABLE 512)
        [⟨1, 0, 204799, "fat32"⟩, ⟨2, 204800, 205799, "ext4"⟩,
          ⟨3, 205800, 206799, "ext4"⟩, ⟨4, 206800, 411599, "fat32"⟩] = none ∧
      runScript (PART_TABLE 512)
          ⟨1000000, 512,
            [⟨1, 0, 204799, "fat32"⟩, ⟨2, 204800, 205799, "ext4"⟩,
              ⟨3, 205800, 206799, "ext4"⟩, ⟨4, 206800, 411599, "fat32"⟩]⟩ =
        .fatal (.diskTooSmall (dynamicEntries (PART_TABLE 512)))
          ⟨⟨1000000, 512,
            [⟨1, 0, 204799, "fat32"⟩, ⟨2, 204800, 205799, "ext4"⟩,
              ⟨3, 205800, 206799, "ext4"⟩, ⟨4, 206800, 411599, "fat32"⟩]⟩, []⟩ :=
  ⟨by decide,
    (C5_sizing_check (PART_TABLE 512)
        ⟨1000000, 512,
          [⟨1, 0, 204799, "fat32"⟩, ⟨2, 204800, 205799, "ext4"⟩,
            ⟨3, 205800, 206799, "ext4"⟩, ⟨4, 206800, 411599, "fat32"⟩]⟩
        ⟨411600, 999999⟩ (by decide) (by decide) (by decide)).mpr
      ⟨(1, MIN_OS_PART_SIZE 512), by decide, by decide⟩⟩

/-- C10 witness: the theorem applied to a concrete both-given request. -/
theorem C10_value_error_witness :
    ((some (5:ℤ) = none ∧ some (9:ℤ) = none) ∨
        (some (5:ℤ) ≠ none ∧ some (9:ℤ) ≠ none)) ∧
      move_partition ⟨⟨1000, 512, [⟨1, 0, 99, "ext4"⟩]⟩, []⟩ ⟨1, 0, 99, "ext4"⟩
        (some 5) (some 9) = .valueError ⟨⟨1000, 512, [⟨1, 0, 99, "ext4"⟩]⟩, []⟩ :=
  ⟨Or.inr ⟨by simp, by simp⟩,
    C10_value_error _ _ _ _ (Or.inr ⟨by simp, by simp⟩)⟩

/-!
### The end-to-end scenario (C1), the move length bug (C2), re-running (C9)
-/

/-- C1 (counterexample).  On the spec's end-to-end input - a 32 000 000
sector device with partitions at sectors 0-204799, 204800-10593407,
10593408-20982015, 20982016-21186815 and trailing free space - the
reconciliation does hit a fatal exit, contradicting the claimed successful
run. -/
theorem C1_scenario_counterexample :
    (runScript (PART_TABLE 512)
        ⟨32000000, 512,
          [⟨1, 0, 204799, "fat32"⟩, ⟨2, 204800, 10593407, "ext4"⟩,
            ⟨3, 10593408, 20982015, "ext4"⟩,
            ⟨4, 20982016, 21186815, "fat32"⟩]⟩).isFatal = true := by
  decide

/-- C1 (amended).  On the spec's end-to-end input the run relocates the
trailing fat partition to the device tail (one sector longer than before,
sectors 31795199-31999999, because the derived end is start + length with
inclusive ends), copying its 104857600 bytes, and then dies with the
occupied-space message while relocating partition 3: the computed new start
31795198 - 15795200 = 15999998 lies inside partition 3's own current extent,
so the destination is not contained in free space.  The first three
partitions are untouched. -/
theorem C1_scenario_amended :
    runScript (PART_TABLE 512)
        ⟨32000000, 512,
          [⟨1, 0, 204799, "fat32"⟩, ⟨2, 204800, 10593407, "ext4"⟩,
            ⟨3, 10593408, 20982015, "ext4"⟩,
            ⟨4, 20982016, 21186815, "fat32"⟩]⟩ =
      .fatal (.moveOccupied 3)
        ⟨⟨32000000, 512,
          [⟨1, 0, 204799, "fat32"⟩, ⟨2, 204800, 10593407, "ext4"⟩,
            ⟨3, 10593408, 20982015, "ext4"⟩,
            ⟨4, 31795199, 31999999, "fat32"⟩]⟩,
          [.copyData 10742792192 16279141888 104857600, .deletePart 4,
            .createPart 31795199 31999999 "fat32"]⟩ := by
  decide

/-- C2.  Moving a 100-sector partition (sectors 100-199) to start 300
recreates it at sectors 300-400: 101 sectors, one more than the original,
because line 84 derives the end as start + getLength() although pyparted
ends are inclusive.  Only the original 100 sectors of data (51200 bytes) are
copied.  The spec's claim that the derived bound preserves the length is the
clear intent; the code is off by one. -/
theorem C2_move_length_code_bug :
    move_partition ⟨⟨1000, 512, [⟨1, 100, 199, "ext4"⟩]⟩, []⟩ ⟨1, 100, 199, "ext4"⟩
        (some 300) none =
      .ok ⟨⟨1000, 512, [⟨1, 300, 400, "ext4"⟩]⟩,
        [.copyData 51200 153600 51200, .deletePart 1, .createPart 300 400 "ext4"]⟩ ∧
      Partition.getLength ⟨1, 300, 400, "ext4"⟩ =
        Partition.getLength ⟨1, 100, 199, "ext4"⟩ + 1 := by
  decide

/-- C9 (counterexample).  A successful reconciliation (here on a 62 500 000
sector device) leaves zero free regions; invoking the script again on the
resulting state does not "find no free space and exit the loop immediately"
- it terminates with an uncaught IndexError at line 154
(getFreeSpaceRegions()[-1] on an empty list), before the loop is ever
reached.  No mutation and no copy happens (trace stays empty), but the
claimed clean convergence exit does not. -/
theorem C9_rerun_counterexample :
    runScript (PART_TABLE 512)
        ⟨62500000, 512,
          [⟨1, 0, 204799, "fat32"⟩, ⟨2, 204800, 8593407, "ext4"⟩,
            ⟨3, 8593408, 16982015, "ext4"⟩, ⟨4, 16982016, 17186815, "fat32"⟩]⟩ =
      .ok ⟨⟨62500000, 512,
          [⟨1, 0, 204799, "fat32"⟩, ⟨2, 204800, 31249997, "ext4"⟩,
            ⟨3, 31249998, 62295198, "ext4"⟩, ⟨4, 62295199, 62499999, "fat32"⟩]⟩,
        [.copyData 8694792192 31895141888 104857600, .deletePart 4,
          .createPart 62295199 62499999 "fat32",
          .copyData 4399824896 15999998976 4294967296, .deletePart 3,
          .createPart 31249998 39638606 "ext4", .resizePart 3 62295198, .resizeFs 3,
          .resizePart 2 31249997, .resizeFs 2]⟩ ∧
      runScript (PART_TABLE 512)
        ⟨62500000, 512,
          [⟨1, 0, 204799, "fat32"⟩, ⟨2, 204800, 31249997, "ext4"⟩,
            ⟨3, 31249998, 62295198, "ext4"⟩, ⟨4, 62295199, 62499999, "fat32"⟩]⟩ =
      .indexError
        ⟨⟨62500000, 512,
          [⟨1, 0, 204799, "fat32"⟩, ⟨2, 204800, 31249997, "ext4"⟩,
            ⟨3, 31249998, 62295198, "ext4"⟩, ⟨4, 62295199, 62499999, "fat32"⟩]⟩, []⟩ := by
  decide

/-- C9 (amended).  On any device state with zero free-space regions - in
particular any state a successful convergent run leaves behind - a second
invocation performs no table mutation and no data copy: it terminates before
the loop, with the initial disk and an empty action trace, either at
validation or with the IndexError of line 154. -/
theorem C9_rerun_amended (tbl : List TemplateEntry) (d : Disk)
    (hfree : d.getFreeSpaceRegions = []) :
    runScript tbl d = .indexError ⟨d, []⟩ ∨
      ∃ m, runScript tbl d = .fatal m ⟨d, []⟩ := by
  unfold runScript
  cases hv : validateLayout tbl d.partitions with
  | some msg =>
    right
    exact ⟨msg, rfl⟩
  | none =>
    left
    rw [hfree]
    rfl

/-- C9 witness: the amended theorem applied to the converged disk of the
counterexample run. -/
theorem C9_rerun_amended_witness :
    Disk.getFreeSpaceRegions
        ⟨62500000, 512,
          [⟨1, 0, 204799, "fat32"⟩, ⟨2, 204800, 31249997, "ext4"⟩,
            ⟨3, 31249998, 62295198, "ext4"⟩, ⟨4, 62295199, 62499999, "fat32"⟩]⟩ = [] ∧
      (runScript (PART_TABLE 512)
          ⟨62500000, 512,
            [⟨1, 0, 204799, "fat32"⟩, ⟨2, 204800, 31249997, "ext4"⟩,
              ⟨3, 31249998, 62295198, "ext4"⟩, ⟨4, 62295199, 62499999, "fat32"⟩]⟩ =
        .indexError
          ⟨⟨62500000, 512,
            [⟨1, 0, 204799, "fat32"⟩, ⟨2, 204800, 31249997, "ext4"⟩,
              ⟨3, 31249998, 62295198, "ext4"⟩, ⟨4, 62295199, 62499999, "fat32"⟩]⟩, []⟩ ∨
        ∃ m, runScript (PART_TABLE 512)
          ⟨62500000, 512,
            [⟨1, 0, 204799, "fat32"⟩, ⟨2, 204800, 31249997, "ext4"⟩,
              ⟨3, 31249998, 62295198, "ext4"⟩, ⟨4, 62295199, 62499999, "fat32"⟩]⟩ =
        .fatal m
          ⟨⟨62500000, 512,
            [⟨1, 0, 204799, "fat32"⟩, ⟨2, 204800, 31249997, "ext4"⟩,
              ⟨3, 31249998, 62295198, "ext4"⟩, ⟨4, 62295199, 62499999, "fat32"⟩]⟩, []⟩) :=
  ⟨by decide, C9_rerun_amended (PART_TABLE 512) _ (by decide)⟩

/-!
### Unfolding lemmas for the reconciliation loop and the mutation operations
-/

theorem reconcileLoop_break {dpn0 : ℕ} {target : ℤ} {n : ℕ} {e : TemplateEntry}
    {rest : List (ℕ × TemplateEntry)} {s : St}
    (hfr : s.disk.getFreeSpaceRegions = []) :
    reconcileLoop dpn0 target ((n, e) :: rest) s = .ok s := by
  rw [reconcileLoop, hfr]
  rfl

theorem reconcileLoop_skip {dpn0 : ℕ} {target : ℤ} {n : ℕ} {e : TemplateEntry}
    {rest : List (ℕ × TemplateEntry)} {s : St} {g : Geometry} {p : Partition}
    (hfr : s.disk.getFreeSpaceRegions.getLast? = some g)
    (hp : s.disk.partitions[n]? = some p)
    (hskip : g.stop < p.start) :
    reconcileLoop dpn0 target ((n, e) :: rest) s = reconcileLoop dpn0 target rest s := by
  rw [reconcileLoop]
  simp only [hfr, hp]
  rw [if_pos hskip]

theorem reconcileLoop_dyn_move {dpn0 : ℕ} {target : ℤ} {n : ℕ} {e : TemplateEntry}
    {rest : List (ℕ × TemplateEntry)} {s : St} {g : Geometry} {p : Partition}
    (hfr : s.disk.getFreeSpaceRegions.getLast? = some g)
    (hp : s.disk.partitions[n]? = some p)
    (hskip : ¬g.stop < p.start) (hdyn : 0 < e.min_size) (hmov : dpn0 < p.number) :
    reconcileLoop dpn0 target ((n, e) :: rest) s =
      (move_partition s p (some (g.stop - target)) none).andThen fun s1 =>
        match s1.disk.partitions[n]? with
        | none => .indexError s1
        | some p2 =>
          (resize_partition s1 p2 g.stop).andThen fun s2 =>
            reconcileLoop dpn0 target rest s2 := by
  rw [reconcileLoop]
  simp only [hfr, hp]
  rw [if_neg hskip, if_pos hdyn, if_pos hmov]

theorem reconcileLoop_dyn_anchor {dpn0 : ℕ} {target : ℤ} {n : ℕ} {e : TemplateEntry}
    {rest : List (ℕ × TemplateEntry)} {s : St} {g : Geometry} {p : Partition}
    (hfr : s.disk.getFreeSpaceRegions.getLast? = some g)
    (hp : s.disk.partitions[n]? = some p)
    (hskip : ¬g.stop < p.start) (hdyn : 0 < e.min_size) (hmov : ¬dpn0 < p.number) :
    reconcileLoop dpn0 target ((n, e) :: rest) s =
      match s.disk.partitions[n]? with
      | none => .indexError s
      | some p2 =>
        (resize_partition s p2 g.stop).andThen fun s2 =>
          reconcileLoop dpn0 target rest s2 := by
  rw [reconcileLoop]
  simp only [hfr, hp]
  rw [if_neg hskip, if_pos hdyn, if_neg hmov]
  simp only [Outcome.andThen, hp]

theorem reconcileLoop_fix_move {dpn0 : ℕ} {target : ℤ} {n : ℕ} {e : TemplateEntry}
    {rest : List (ℕ × TemplateEntry)} {s : St} {g : Geometry} {p : Partition}
    (hfr : s.disk.getFreeSpaceRegions.getLast? = some g)
    (hp : s.disk.partitions[n]? = some p)
    (hskip : ¬g.stop < p.start) (hdyn : ¬0 < e.min_size) (hfix : p.stop < g.start) :
    reconcileLoop dpn0 target ((n, e) :: rest) s =
      (move_partition s p none (some g.stop)).andThen fun s1 =>
        reconcileLoop dpn0 target rest s1 := by
  rw [reconcileLoop]
  simp only [hfr, hp]
  rw [if_neg hskip, if_neg hdyn, if_pos hfix]

theorem reconcileLoop_fix_skip {dpn0 : ℕ} {target : ℤ} {n : ℕ} {e : TemplateEntry}
    {rest : List (ℕ × TemplateEntry)} {s : St} {g : Geometry} {p : Partition}
    (hfr : s.disk.getFreeSpaceRegions.getLast? = some g)
    (hp : s.disk.partitions[n]? = some p)
    (hskip : ¬g.stop < p.start) (hdyn : ¬0 < e.min_size) (hfix : ¬p.stop < g.start) :
    reconcileLoop dpn0 target ((n, e) :: rest) s = reconcileLoop dpn0 target rest s := by
  rw [reconcileLoop]
  simp only [hfr, hp]
  rw [if_neg hskip, if_neg hdyn, if_neg hfix]

theorem create_partition_ok (d : Disk) (tr : List Action) {start stop : ℤ}
    {fscode : String}
    (hc : 0 ≤ start ∧ start ≤ stop ∧ stop < d.length ∧
      ∀ q ∈ d.partitions, stop < q.start ∨ q.stop < start) :
    create_partition ⟨d, tr⟩ start stop fscode none =
      .ok ⟨⟨d.length, d.sectorSize,
          insertSorted ⟨lowestFreeNumber d.partitions, start, stop, fscode⟩ d.partitions⟩,
        tr ++ [.createPart start stop fscode]⟩ := by
  unfold create_partition
  rw [if_pos hc]

theorem resize_partition_ok (d : Disk) (tr : List Action) (p : Partition) (stop : ℤ)
    (hc : p.start ≤ stop ∧ stop < d.length ∧
      ∀ q ∈ d.partitions, q.number = p.number ∨ stop < q.start ∨ q.stop < p.start) :
    resize_partition ⟨d, tr⟩ p stop =
      .ok ⟨⟨d.length, d.sectorSize, setStopByNumber p.number stop d.partitions⟩,
        tr ++ [.resizePart p.number stop, .resizeFs p.number]⟩ := by
  unfold resize_partition
  rw [if_pos hc]

theorem move_partition_go_ok (d : Disk) (tr : List Action) {p : Partition} {v w : ℤ}
    (hfree : is_free_space d v w = true)
    (hmem : (d.partitions.any fun q => q.number = p.number) = true)
    (hcre : 0 ≤ v ∧ v ≤ w ∧ w < d.length ∧
      ∀ q ∈ deleteByNumber p.number d.partitions, w < q.start ∨ q.stop < v) :
    move_partition_go ⟨d, tr⟩ p v w =
      .ok ⟨⟨d.length, d.sectorSize,
          insertSorted
            ⟨lowestFreeNumber (deleteByNumber p.number d.partitions), v, w, p.fsType⟩
            (deleteByNumber p.number d.partitions)⟩,
        tr ++ [.copyData (p.start * d.sectorSize) (v * d.sectorSize)
            (p.getLength * d.sectorSize), .deletePart p.number,
          .createPart v w p.fsType]⟩ := by
  unfold move_partition_go
  rw [show (⟨d, tr⟩ : St).disk = d from rfl, show (⟨d, tr⟩ : St).trace = tr from rfl,
    hfree, if_pos rfl, hmem, if_pos rfl]
  refine (create_partition_ok _ _ hcre).trans ?_
  simp [List.append_assoc]

theorem move_partition_end_ok (d : Disk) (tr : List Action) (p : Partition) (v w : ℤ)
    (hv : v = w - p.getLength)
    (hfree : is_free_space d v w = true)
    (hmem : (d.partitions.any fun q => q.number = p.number) = true)
    (hcre : 0 ≤ v ∧ v ≤ w ∧ w < d.length ∧
      ∀ q ∈ deleteByNumber p.number d.partitions, w < q.start ∨ q.stop < v) :
    move_partition ⟨d, tr⟩ p none (some w) =
      .ok ⟨⟨d.length, d.sectorSize,
          insertSorted
            ⟨lowestFreeNumber (deleteByNumber p.number d.partitions), v, w, p.fsType⟩
            (deleteByNumber p.number d.partitions)⟩,
        tr ++ [.copyData (p.start * d.sectorSize) (v * d.sectorSize)
            (p.getLength * d.sectorSize), .deletePart p.number,
          .createPart v w p.fsType]⟩ := by
  subst hv
  exact move_partition_go_ok d tr hfree hmem hcre

theorem move_partition_start_ok (d : Disk) (tr : List Action) (p : Partition) (v w : ℤ)
    (hw : w = v + p.getLength)
    (hfree : is_free_space d v w = true)
    (hmem : (d.partitions.any fun q => q.number = p.number) = true)
    (hcre : 0 ≤ v ∧ v ≤ w ∧ w < d.length ∧
      ∀ q ∈ deleteByNumber p.number d.partitions, w < q.start ∨ q.stop < v) :
    move_partition ⟨d, tr⟩ p (some v) none =
      .ok ⟨⟨d.length, d.sectorSize,
          insertSorted
            ⟨lowestFreeNumber (deleteByNumber p.number d.partitions), v, w, p.fsType⟩
            (deleteByNumber p.number d.partitions)⟩,
        tr ++ [.copyData (p.start * d.sectorSize) (v * d.sectorSize)
            (p.getLength * d.sectorSize), .deletePart p.number,
          .createPart v w p.fsType]⟩ := by
  subst hw
  exact move_partition_go_ok d tr hfree hmem hcre

/-!
### Free-space regions of the bootstrap family's intermediate layouts
-/

theorem freeRegions_family_start (N a b c : ℤ) (ha : 1 ≤ a) (hb : 1 ≤ b) (hc : 1 ≤ c)
    (hN : a + 2 * c + b ≤ N - 1) :
    Disk.getFreeSpaceRegions
        ⟨N, 512,
          [⟨1, 0, a - 1, "fat32"⟩, ⟨2, a, a + c - 1, "ext4"⟩,
            ⟨3, a + c, a + 2 * c - 1, "ext4"⟩,
            ⟨4, a + 2 * c, a + 2 * c + b - 1, "fat32"⟩]⟩ =
      [⟨a + 2 * c + b, N - 1⟩] := by
  unfold Disk.getFreeSpaceRegions
  simp only [freeRegionsAux]
  split_ifs <;>
    first
      | (exfalso; omega)
      | (simp only [List.nil_append, List.append_nil, List.cons.injEq, Geometry.mk.injEq,
          and_true]; omega)

theorem freeRegions_family_tail (N a b c : ℤ) (ha : 1 ≤ a) (hb : 1 ≤ b) (hc : 1 ≤ c)
    (hN : a + 2 * c ≤ N - 2 - b) :
    Disk.getFreeSpaceRegions
        ⟨N, 512,
          [⟨1, 0, a - 1, "fat32"⟩, ⟨2, a, a + c - 1, "ext4"⟩,
            ⟨3, a + c, a + 2 * c - 1, "ext4"⟩, ⟨4, N - 1 - b, N - 1, "fat32"⟩]⟩ =
      [⟨a + 2 * c, N - 2 - b⟩] := by
  unfold Disk.getFreeSpaceRegions
  simp only [freeRegionsAux]
  split_ifs <;>
    first
      | (exfalso; omega)
      | (simp only [List.nil_append, List.append_nil, List.cons.injEq, Geometry.mk.injEq,
          and_true]; omega)

theorem freeRegions_family_resized (N a b c T : ℤ) (ha : 1 ≤ a) (hb : 1 ≤ b) (hc : 1 ≤ c)
    (hT : a + c ≤ N - 3 - b - T) :
    Disk.getFreeSpaceRegions
        ⟨N, 512,
          [⟨1, 0, a - 1, "fat32"⟩, ⟨2, a, a + c - 1, "ext4"⟩,
            ⟨3, N - 2 - b - T, N - 2 - b, "ext4"⟩, ⟨4, N - 1 - b, N - 1, "fat32"⟩]⟩ =
      [⟨a + c, N - 3 - b - T⟩] := by
  unfold Disk.getFreeSpaceRegions
  simp only [freeRegionsAux]
  split_ifs <;>
    first
      | (exfalso; omega)
      | (simp only [List.nil_append, List.append_nil, List.cons.injEq, Geometry.mk.injEq,
          and_true]; omega)

theorem freeRegions_family_final (N a b T : ℤ) (ha : 1 ≤ a) (hb : 1 ≤ b)
    (h2 : a ≤ N - 3 - b - T) :
    Disk.getFreeSpaceRegions
        ⟨N, 512,
          [⟨1, 0, a - 1, "fat32"⟩, ⟨2, a, N - 3 - b - T, "ext4"⟩,
            ⟨3, N - 2 - b - T, N - 2 - b, "ext4"⟩, ⟨4, N - 1 - b, N - 1, "fat32"⟩]⟩ =
      [] := by
  unfold Disk.getFreeSpaceRegions
  simp only [freeRegionsAux]
  split_ifs <;>
    first
      | (exfalso; omega)
      | rfl

/-- Step 1 of the family run: the loop entry for template index 3 relocates
the trailing fat partition to the device tail (its recreated extent is one
sector longer than its data, see C2). -/
theorem family_iter3 (N a b c F T : ℤ) (hN : N = a + 2 * c + b + F)
    (ha : 1 ≤ a) (hb : 1 ≤ b) (hc : 1 ≤ c) (hbF : b + 1 ≤ F)
    (rest : List (ℕ × TemplateEntry)) :
    reconcileLoop 2 T ((3, ⟨"fat", "fat32", 0⟩) :: rest)
        ⟨⟨N, 512,
          [⟨1, 0, a - 1, "fat32"⟩, ⟨2, a, a + c - 1, "ext4"⟩,
            ⟨3, a + c, a + 2 * c - 1, "ext4"⟩,
            ⟨4, a + 2 * c, a + 2 * c + b - 1, "fat32"⟩]⟩, []⟩ =
      reconcileLoop 2 T rest
        ⟨⟨N, 512,
          [⟨1, 0, a - 1, "fat32"⟩, ⟨2, a, a + c - 1, "ext4"⟩,
            ⟨3, a + c, a + 2 * c - 1, "ext4"⟩, ⟨4, N - 1 - b, N - 1, "fat32"⟩]⟩,
          [.copyData ((a + 2 * c) * 512) ((N - 1 - b) * 512) (b * 512), .deletePart 4,
            .createPart (N - 1 - b) (N - 1) "fat32"]⟩ := by
  have hfr0 : Disk.getFreeSpaceRegions
      ⟨N, 512,
        [⟨1, 0, a - 1, "fat32"⟩, ⟨2, a, a + c - 1, "ext4"⟩,
          ⟨3, a + c, a + 2 * c - 1, "ext4"⟩,
          ⟨4, a + 2 * c, a + 2 * c + b - 1, "fat32"⟩]⟩ = [⟨a + 2 * c + b, N - 1⟩] :=
    freeRegions_family_start N a b c ha hb hc (by omega)
  have hlast0 : (Disk.getFreeSpaceRegions
      ⟨N, 512,
        [⟨1, 0, a - 1, "fat32"⟩, ⟨2, a, a + c - 1, "ext4"⟩,
          ⟨3, a + c, a + 2 * c - 1, "ext4"⟩,
          ⟨4, a + 2 * c, a + 2 * c + b - 1, "fat32"⟩]⟩).getLast? =
      some ⟨a + 2 * c + b, N - 1⟩ := by
    rw [hfr0]
    rfl
  rw [reconcileLoop_fix_move hlast0
    (show ([⟨1, 0, a - 1, "fat32"⟩, ⟨2, a, a + c - 1, "ext4"⟩,
        ⟨3, a + c, a + 2 * c - 1, "ext4"⟩,
        ⟨4, a + 2 * c, a + 2 * c + b - 1, "fat32"⟩] : List Partition)[3]? =
      some ⟨4, a + 2 * c, a + 2 * c + b - 1, "fat32"⟩ from rfl)
    (show ¬(N - 1 < a + 2 * c) by omega)
    (by decide)
    (show a + 2 * c + b - 1 < a + 2 * c + b by omega)]
  have hlen4 : Partition.getLength ⟨4, a + 2 * c, a + 2 * c + b - 1, "fat32"⟩ = b := by
    show a + 2 * c + b - 1 - (a + 2 * c) + 1 = b
    omega
  have hgs : (⟨a + 2 * c + b, N - 1⟩ : Geometry).stop = N - 1 := rfl
  rw [hgs]
  have hfree3 : is_free_space
      ⟨N, 512,
        [⟨1, 0, a - 1, "fat32"⟩, ⟨2, a, a + c - 1, "ext4"⟩,
          ⟨3, a + c, a + 2 * c - 1, "ext4"⟩,
          ⟨4, a + 2 * c, a + 2 * c + b - 1, "fat32"⟩]⟩
      (N - 1 - b) (N - 1) = true := by
    unfold is_free_space
    rw [hfr0]
    simp only [List.any_cons, List.any_nil, Bool.or_false, Bool.and_eq_true,
      decide_eq_true_eq]
    constructor <;> omega
  rw [move_partition_end_ok
    ⟨N, 512,
      [⟨1, 0, a - 1, "fat32"⟩, ⟨2, a, a + c - 1, "ext4"⟩,
        ⟨3, a + c, a + 2 * c - 1, "ext4"⟩,
        ⟨4, a + 2 * c, a + 2 * c + b - 1, "fat32"⟩]⟩ []
    ⟨4, a + 2 * c, a + 2 * c + b - 1, "fat32"⟩ (N - 1 - b) (N - 1)
    (by rw [hlen4])
    hfree3 rfl
    (show 0 ≤ N - 1 - b ∧ N - 1 - b ≤ N - 1 ∧ N - 1 < N ∧
        ∀ q ∈ ([⟨1, 0, a - 1, "fat32"⟩, ⟨2, a, a + c - 1, "ext4"⟩,
          ⟨3, a + c, a + 2 * c - 1, "ext4"⟩] : List Partition),
          N - 1 < q.start ∨ q.stop < N - 1 - b by
      refine ⟨by omega, by omega, by omega, ?_⟩
      intro q hq
      simp only [List.mem_cons, List.not_mem_nil, or_false] at hq
      rcases hq with rfl | rfl | rfl
      · exact Or.inr (show (a - 1 : ℤ) < N - 1 - b by omega)
      · exact Or.inr (show (a + c - 1 : ℤ) < N - 1 - b by omega)
      · exact Or.inr (show (a + 2 * c - 1 : ℤ) < N - 1 - b by omega))]
  have hdel4 : deleteByNumber 4
      [⟨1, 0, a - 1, "fat32"⟩, ⟨2, a, a + c - 1, "ext4"⟩,
        ⟨3, a + c, a + 2 * c - 1, "ext4"⟩,
        (⟨4, a + 2 * c, a + 2 * c + b - 1, "fat32"⟩ : Partition)] =
      [⟨1, 0, a - 1, "fat32"⟩, ⟨2, a, a + c - 1, "ext4"⟩,
        ⟨3, a + c, a + 2 * c - 1, "ext4"⟩] := rfl
  rw [hdel4]
  have hnum4 : lowestFreeNumber
      [⟨1, 0, a - 1, "fat32"⟩, ⟨2, a, a + c - 1, "ext4"⟩,
        (⟨3, a + c, a + 2 * c - 1, "ext4"⟩ : Partition)] = 4 := rfl
  rw [hnum4]
  have hfs4 : (⟨4, a + 2 * c, a + 2 * c + b - 1, "fat32"⟩ : Partition).fsType = "fat32" := rfl
  rw [hfs4]
  have hins4 : insertSorted ⟨4, N - 1 - b, N - 1, "fat32"⟩
      [⟨1, 0, a - 1, "fat32"⟩, ⟨2, a, a + c - 1, "ext4"⟩,
        (⟨3, a + c, a + 2 * c - 1, "ext4"⟩ : Partition)] =
      [⟨1, 0, a - 1, "fat32"⟩, ⟨2, a, a + c - 1, "ext4"⟩,
        ⟨3, a + c, a + 2 * c - 1, "ext4"⟩, ⟨4, N - 1 - b, N - 1, "fat32"⟩] := by
    simp only [insertSorted]
    rw [if_neg (show ¬(N - 1 - b ≤ (0 : ℤ)) by omega),
      if_neg (show ¬(N - 1 - b ≤ a) by omega),
      if_neg (show ¬(N - 1 - b ≤ a + c) by omega)]
  rw [hins4]
  simp only [Outcome.andThen]
  rw [hlen4]
  simp only [List.nil_append]

/-- Step 2 of the family run: the loop entry for template index 2 (the second
dynamic partition) relocates the second ext4 partition so that it ends
`target` sectors below the trailing free end, then resizes it up to that
end. -/
theorem family_iter2 (N a b c F T M : ℤ) (hN : N = a + 2 * c + b + F)
    (ha : 1 ≤ a) (hb : 1 ≤ b) (hc : 1 ≤ c) (hM : 0 < M)
    (hTc : c ≤ T) (hTF : T + 2 ≤ F)
    (rest : List (ℕ × TemplateEntry)) (tr : List Action) :
    reconcileLoop 2 T ((2, ⟨"ext4", "ext2", M⟩) :: rest)
        ⟨⟨N, 512,
          [⟨1, 0, a - 1, "fat32"⟩, ⟨2, a, a + c - 1, "ext4"⟩,
            ⟨3, a + c, a + 2 * c - 1, "ext4"⟩, ⟨4, N - 1 - b, N - 1, "fat32"⟩]⟩, tr⟩ =
      reconcileLoop 2 T rest
        ⟨⟨N, 512,
          [⟨1, 0, a - 1, "fat32"⟩, ⟨2, a, a + c - 1, "ext4"⟩,
            ⟨3, N - 2 - b - T, N - 2 - b, "ext4"⟩, ⟨4, N - 1 - b, N - 1, "fat32"⟩]⟩,
          tr ++ [.copyData ((a + c) * 512) ((N - 2 - b - T) * 512) (c * 512),
            .deletePart 3, .createPart (N - 2 - b - T) (N - 2 - b - T + c) "ext4",
            .resizePart 3 (N - 2 - b), .resizeFs 3]⟩ := by
  have hfr1 : Disk.getFreeSpaceRegions
      ⟨N, 512,
        [⟨1, 0, a - 1, "fat32"⟩, ⟨2, a, a + c - 1, "ext4"⟩,
          ⟨3, a + c, a + 2 * c - 1, "ext4"⟩, ⟨4, N - 1 - b, N - 1, "fat32"⟩]⟩ =
      [⟨a + 2 * c, N - 2 - b⟩] :=
    freeRegions_family_tail N a b c ha hb hc (by omega)
  have hlast1 : (Disk.getFreeSpaceRegions
      ⟨N, 512,
        [⟨1, 0, a - 1, "fat32"⟩, ⟨2, a, a + c - 1, "ext4"⟩,
          ⟨3, a + c, a + 2 * c - 1, "ext4"⟩, ⟨4, N - 1 - b, N - 1, "fat32"⟩]⟩).getLast? =
      some ⟨a + 2 * c, N - 2 - b⟩ := by
    rw [hfr1]
    rfl
  rw [reconcileLoop_dyn_move hlast1
    (show ([⟨1, 0, a - 1, "fat32"⟩, ⟨2, a, a + c - 1, "ext4"⟩,
        ⟨3, a + c, a + 2 * c - 1, "ext4"⟩,
        ⟨4, N - 1 - b, N - 1, "fat32"⟩] : List Partition)[2]? =
      some ⟨3, a + c, a + 2 * c - 1, "ext4"⟩ from rfl)
    (show ¬(N - 2 - b < a + c) by omega)
    hM
    (by show (2 : ℕ) < 3; decide)]
  have hlen3 : Partition.getLength ⟨3, a + c, a + 2 * c - 1, "ext4"⟩ = c := by
    show a + 2 * c - 1 - (a + c) + 1 = c
    omega
  have hgs1 : (⟨a + 2 * c, N - 2 - b⟩ : Geometry).stop = N - 2 - b := rfl
  rw [hgs1]
  have hfree2 : is_free_space
      ⟨N, 512,
        [⟨1, 0, a - 1, "fat32"⟩, ⟨2, a, a + c - 1, "ext4"⟩,
          ⟨3, a + c, a + 2 * c - 1, "ext4"⟩, ⟨4, N - 1 - b, N - 1, "fat32"⟩]⟩
      (N - 2 - b - T) (N - 2 - b - T + c) = true := by
    unfold is_free_space
    rw [hfr1]
    simp only [List.any_cons, List.any_nil, Bool.or_false, Bool.and_eq_true,
      decide_eq_true_eq]
    constructor <;> omega
  rw [move_partition_start_ok
    ⟨N, 512,
      [⟨1, 0, a - 1, "fat32"⟩, ⟨2, a, a + c - 1, "ext4"⟩,
        ⟨3, a + c, a + 2 * c - 1, "ext4"⟩, ⟨4, N - 1 - b, N - 1, "fat32"⟩]⟩ tr
    ⟨3, a + c, a + 2 * c - 1, "ext4"⟩ (N - 2 - b - T) (N - 2 - b - T + c)
    (by rw [hlen3])
    hfree2 rfl
    (show 0 ≤ N - 2 - b - T ∧ N - 2 - b - T ≤ N - 2 - b - T + c ∧
        N - 2 - b - T + c < N ∧
        ∀ q ∈ ([⟨1, 0, a - 1, "fat32"⟩, ⟨2, a, a + c - 1, "ext4"⟩,
          ⟨4, N - 1 - b, N - 1, "fat32"⟩] : List Partition),
          N - 2 - b - T + c < q.start ∨ q.stop < N - 2 - b - T by
      refine ⟨by omega, by omega, by omega, ?_⟩
      intro q hq
      simp only [List.mem_cons, List.not_mem_nil, or_false] at hq
      rcases hq with rfl | rfl | rfl
      · exact Or.inr (show (a - 1 : ℤ) < N - 2 - b - T by omega)
      · exact Or.inr (show (a + c - 1 : ℤ) < N - 2 - b - T by omega)
      · exact Or.inl (show (N - 2 - b - T + c : ℤ) < N - 1 - b by omega))]
  have hdel3 : deleteByNumber 3
      [⟨1, 0, a - 1, "fat32"⟩, ⟨2, a, a + c - 1, "ext4"⟩,
        ⟨3, a + c, a + 2 * c - 1, "ext4"⟩,
        (⟨4, N - 1 - b, N - 1, "fat32"⟩ : Partition)] =
      [⟨1, 0, a - 1, "fat32"⟩, ⟨2, a, a + c - 1, "ext4"⟩,
        ⟨4, N - 1 - b, N - 1, "fat32"⟩] := rfl
  rw [hdel3]
  have hnum3 : lowestFreeNumber
      [⟨1, 0, a - 1, "fat32"⟩, ⟨2, a, a + c - 1, "ext4"⟩,
        (⟨4, N - 1 - b, N - 1, "fat32"⟩ : Partition)] = 3 := rfl
  rw [hnum3]
  have hfs3 : (⟨3, a + c, a + 2 * c - 1, "ext4"⟩ : Partition).fsType = "ext4" := rfl
  rw [hfs3]
  have hins3 : insertSorted ⟨3, N - 2 - b - T, N - 2 - b - T + c, "ext4"⟩
      [⟨1, 0, a - 1, "fat32"⟩, ⟨2, a, a + c - 1, "ext4"⟩,
        (⟨4, N - 1 - b, N - 1, "fat32"⟩ : Partition)] =
      [⟨1, 0, a - 1, "fat32"⟩, ⟨2, a, a + c - 1, "ext4"⟩,
        ⟨3, N - 2 - b - T, N - 2 - b - T + c, "ext4"⟩,
        ⟨4, N - 1 - b, N - 1, "fat32"⟩] := by
    simp only [insertSorted]
    rw [if_neg (show ¬(N - 2 - b - T ≤ (0 : ℤ)) by omega),
      if_neg (show ¬(N - 2 - b - T ≤ a) by omega),
      if_pos (show (N - 2 - b - T : ℤ) ≤ N - 1 - b by omega)]
  rw [hins3]
  simp only [Outcome.andThen]
  have hp2 : ([⟨1, 0, a - 1, "fat32"⟩, ⟨2, a, a + c - 1, "ext4"⟩,
      ⟨3, N - 2 - b - T, N - 2 - b - T + c, "ext4"⟩,
      ⟨4, N - 1 - b, N - 1, "fat32"⟩] : List Partition)[2]? =
      some ⟨3, N - 2 - b - T, N - 2 - b - T + c, "ext4"⟩ := rfl
  simp only [hp2]
  rw [hlen3]
  rw [resize_partition_ok
    ⟨N, 512,
      [⟨1, 0, a - 1, "fat32"⟩, ⟨2, a, a + c - 1, "ext4"⟩,
        ⟨3, N - 2 - b - T, N - 2 - b - T + c, "ext4"⟩,
        ⟨4, N - 1 - b, N - 1, "fat32"⟩]⟩
    (tr ++ [Action.copyData ((a + c) * 512) ((N - 2 - b - T) * 512) (c * 512),
      Action.deletePart 3,
      Action.createPart (N - 2 - b - T) (N - 2 - b - T + c) "ext4"])
    ⟨3, N - 2 - b - T, N - 2 - b - T + c, "ext4"⟩ (N - 2 - b)
    (show (N - 2 - b - T : ℤ) ≤ N - 2 - b ∧ N - 2 - b < N ∧
        ∀ q ∈ ([⟨1, 0, a - 1, "fat32"⟩, ⟨2, a, a + c - 1, "ext4"⟩,
          ⟨3, N - 2 - b - T, N - 2 - b - T + c, "ext4"⟩,
          ⟨4, N - 1 - b, N - 1, "fat32"⟩] : List Partition),
          q.number = 3 ∨ N - 2 - b < q.start ∨ q.stop < N - 2 - b - T by
      refine ⟨by omega, by omega, ?_⟩
      intro q hq
      simp only [List.mem_cons, List.not_mem_nil, or_false] at hq
      rcases hq with rfl | rfl | rfl | rfl
      · exact Or.inr (Or.inr (show (a - 1 : ℤ) < N - 2 - b - T by omega))
      · exact Or.inr (Or.inr (show (a + c - 1 : ℤ) < N - 2 - b - T by omega))
      · exact Or.inl rfl
      · exact Or.inr (Or.inl (show (N - 2 - b : ℤ) < N - 1 - b by omega)))]
  have hset3 : setStopByNumber 3 (N - 2 - b)
      [⟨1, 0, a - 1, "fat32"⟩, ⟨2, a, a + c - 1, "ext4"⟩,
        ⟨3, N - 2 - b - T, N - 2 - b - T + c, "ext4"⟩,
        (⟨4, N - 1 - b, N - 1, "fat32"⟩ : Partition)] =
      [⟨1, 0, a - 1, "fat32"⟩, ⟨2, a, a + c - 1, "ext4"⟩,
        ⟨3, N - 2 - b - T, N - 2 - b, "ext4"⟩,
        ⟨4, N - 1 - b, N - 1, "fat32"⟩] := rfl
  rw [hset3]
  simp only [Outcome.andThen]
  simp only [List.append_assoc, List.cons_append, List.nil_append]

/-- Step 3 of the family run: the loop entry for template index 1 (the anchor,
the lowest-numbered dynamic partition) resizes the first ext4 partition in
place up to the remaining free end; it is never relocated. -/
theorem family_iter1 (N a b c F T M : ℤ) (hN : N = a + 2 * c + b + F)
    (ha : 1 ≤ a) (hb : 1 ≤ b) (hc : 1 ≤ c) (hM : 0 < M)
    (hTc : c ≤ T) (hTF : T + 2 ≤ F)
    (rest : List (ℕ × TemplateEntry)) (tr : List Action) :
    reconcileLoop 2 T ((1, ⟨"ext4", "ext2", M⟩) :: rest)
        ⟨⟨N, 512,
          [⟨1, 0, a - 1, "fat32"⟩, ⟨2, a, a + c - 1, "ext4"⟩,
            ⟨3, N - 2 - b - T, N - 2 - b, "ext4"⟩, ⟨4, N - 1 - b, N - 1, "fat32"⟩]⟩, tr⟩ =
      reconcileLoop 2 T rest
        ⟨⟨N, 512,
          [⟨1, 0, a - 1, "fat32"⟩, ⟨2, a, N - 3 - b - T, "ext4"⟩,
            ⟨3, N - 2 - b - T, N - 2 - b, "ext4"⟩, ⟨4, N - 1 - b, N - 1, "fat32"⟩]⟩,
          tr ++ [.resizePart 2 (N - 3 - b - T), .resizeFs 2]⟩ := by
  have hfr2 : Disk.getFreeSpaceRegions
      ⟨N, 512,
        [⟨1, 0, a - 1, "fat32"⟩, ⟨2, a, a + c - 1, "ext4"⟩,
          ⟨3, N - 2 - b - T, N - 2 - b, "ext4"⟩, ⟨4, N - 1 - b, N - 1, "fat32"⟩]⟩ =
      [⟨a + c, N - 3 - b - T⟩] :=
    freeRegions_family_resized N a b c T ha hb hc (by omega)
  have hlast2 : (Disk.getFreeSpaceRegions
      ⟨N, 512,
        [⟨1, 0, a - 1, "fat32"⟩, ⟨2, a, a + c - 1, "ext4"⟩,
          ⟨3, N - 2 - b - T, N - 2 - b, "ext4"⟩,
          ⟨4, N - 1 - b, N - 1, "fat32"⟩]⟩).getLast? =
      some ⟨a + c, N - 3 - b - T⟩ := by
    rw [hfr2]
    rfl
  have hp1 : ([⟨1, 0, a - 1, "fat32"⟩, ⟨2, a, a + c - 1, "ext4"⟩,
      ⟨3, N - 2 - b - T, N - 2 - b, "ext4"⟩,
      ⟨4, N - 1 - b, N - 1, "fat32"⟩] : List Partition)[1]? =
      some ⟨2, a, a + c - 1, "ext4"⟩ := rfl
  rw [reconcileLoop_dyn_anchor hlast2 hp1
    (show ¬(N - 3 - b - T < a) by omega)
    hM
    (by show ¬(2 : ℕ) < 2; decide)]
  simp only [hp1]
  rw [resize_partition_ok
    ⟨N, 512,
      [⟨1, 0, a - 1, "fat32"⟩, ⟨2, a, a + c - 1, "ext4"⟩,
        ⟨3, N - 2 - b - T, N - 2 - b, "ext4"⟩, ⟨4, N - 1 - b, N - 1, "fat32"⟩]⟩ tr
    ⟨2, a, a + c - 1, "ext4"⟩ (N - 3 - b - T)
    (show (a : ℤ) ≤ N - 3 - b - T ∧ N - 3 - b - T < N ∧
        ∀ q ∈ ([⟨1, 0, a - 1, "fat32"⟩, ⟨2, a, a + c - 1, "ext4"⟩,
          ⟨3, N - 2 - b - T, N - 2 - b, "ext4"⟩,
          ⟨4, N - 1 - b, N - 1, "fat32"⟩] : List Partition),
          q.number = 2 ∨ N - 3 - b - T < q.start ∨ q.stop < a by
      refine ⟨by omega, by omega, ?_⟩
      intro q hq
      simp only [List.mem_cons, List.not_mem_nil, or_false] at hq
      rcases hq with rfl | rfl | rfl | rfl
      · exact Or.inr (Or.inr (show (a - 1 : ℤ) < a by omega))
      · exact Or.inl rfl
      · exact Or.inr (Or.inl (show (N - 3 - b - T : ℤ) < N - 2 - b - T by omega))
      · exact Or.inr (Or.inl (show (N - 3 - b - T : ℤ) < N - 1 - b by omega)))]
  have hset2 : setStopByNumber 2 (N - 3 - b - T)
      [⟨1, 0, a - 1, "fat32"⟩, ⟨2, a, a + c - 1, "ext4"⟩,
        ⟨3, N - 2 - b - T, N - 2 - b, "ext4"⟩,
        (⟨4, N - 1 - b, N - 1, "fat32"⟩ : Partition)] =
      [⟨1, 0, a - 1, "fat32"⟩, ⟨2, a, N - 3 - b - T, "ext4"⟩,
        ⟨3, N - 2 - b - T, N - 2 - b, "ext4"⟩,
        ⟨4, N - 1 - b, N - 1, "fat32"⟩] := rfl
  rw [hset2]
  simp only [Outcome.andThen]

/-- C8 (counterexample).  A 32 000 001-sector device carrying the bootstrap
layout (fat 204800, ext4 10388608, ext4 10388608, fat 204800 sectors,
contiguous from sector 0) passes the sizing check - the computed target
15795200 is at least every dynamic minimum 8388608 - yet the reconciliation
run hits a fatal exit instead of terminating with zero free regions: the
second ext4's relocation destination overlaps the partition itself, so the
occupied-space check fires. -/
theorem C8_counterexample :
    (∀ x ∈ dynamicEntries (PART_TABLE 512),
        x.2 ≤ scriptTarget (PART_TABLE 512) ⟨21186816, 32000000⟩
          (bootstrapDisk 32000001 204800 204800 10388608)) ∧
      (bootstrapDisk 32000001 204800 204800 10388608).getFreeSpaceRegions.getLast? =
        some ⟨21186816, 32000000⟩ ∧
      (runScript (PART_TABLE 512)
          (bootstrapDisk 32000001 204800 204800 10388608)).isFatal = true := by
  decide

/-- The full family run: on the bootstrap family - device of
`N = a + 2c + b + F` sectors laid out as fat `a`, ext4 `c`, ext4 `c`, fat `b`
contiguously from sector 0 with trailing free space `F` - with computed
target `T` at least the dynamic minimum, `c ≤ T` (the moved ext4 partition
may only grow), `T + 2 ≤ F` (its destination fits in the trailing gap) and
`b + 1 ≤ F` (the trailing fat partition, one sector longer than its data,
fits at the device tail), the script runs to completion with the exact final
table and action trace. -/
theorem family_runScript (N a b c F T : ℤ) (hN : N = a + 2 * c + b + F)
    (ha : 1 ≤ a) (hb : 1 ≤ b) (hc : 1 ≤ c) (hbF : b + 1 ≤ F)
    (hT : scriptTarget (PART_TABLE 512) ⟨a + 2 * c + b, N - 1⟩
      (bootstrapDisk N a b c) = T)
    (hTmin : MIN_OS_PART_SIZE 512 ≤ T)
    (hTc : c ≤ T) (hTF : T + 2 ≤ F) :
    runScript (PART_TABLE 512) (bootstrapDisk N a b c) =
      .ok ⟨⟨N, 512,
          [⟨1, 0, a - 1, "fat32"⟩, ⟨2, a, N - 3 - b - T, "ext4"⟩,
            ⟨3, N - 2 - b - T, N - 2 - b, "ext4"⟩, ⟨4, N - 1 - b, N - 1, "fat32"⟩]⟩,
        [.copyData ((a + 2 * c) * 512) ((N - 1 - b) * 512) (b * 512),
          .deletePart 4, .createPart (N - 1 - b) (N - 1) "fat32",
          .copyData ((a + c) * 512) ((N - 2 - b - T) * 512) (c * 512),
          .deletePart 3, .createPart (N - 2 - b - T) (N - 2 - b - T + c) "ext4",
          .resizePart 3 (N - 2 - b), .resizeFs 3,
          .resizePart 2 (N - 3 - b - T), .resizeFs 2]⟩ := by
  have hMpos : (0 : ℤ) < MIN_OS_PART_SIZE 512 := by decide
  have hbd : bootstrapDisk N a b c =
      ⟨N, 512,
        [⟨1, 0, a - 1, "fat32"⟩, ⟨2, a, a + c - 1, "ext4"⟩,
          ⟨3, a + c, a + 2 * c - 1, "ext4"⟩,
          ⟨4, a + 2 * c, a + 2 * c + b - 1, "fat32"⟩]⟩ := rfl
  rw [hbd] at hT
  rw [hbd]
  unfold runScript
  have hval : validateLayout (PART_TABLE 512)
      (⟨N, 512,
        [⟨1, 0, a - 1, "fat32"⟩, ⟨2, a, a + c - 1, "ext4"⟩,
          ⟨3, a + c, a + 2 * c - 1, "ext4"⟩,
          ⟨4, a + 2 * c, a + 2 * c + b - 1, "fat32"⟩]⟩ : Disk).partitions = none := rfl
  simp only [hval]
  have hfr0 : Disk.getFreeSpaceRegions
      ⟨N, 512,
        [⟨1, 0, a - 1, "fat32"⟩, ⟨2, a, a + c - 1, "ext4"⟩,
          ⟨3, a + c, a + 2 * c - 1, "ext4"⟩,
          ⟨4, a + 2 * c, a + 2 * c + b - 1, "fat32"⟩]⟩ = [⟨a + 2 * c + b, N - 1⟩] :=
    freeRegions_family_start N a b c ha hb hc (by omega)
  have hlast : (Disk.getFreeSpaceRegions
      ⟨N, 512,
        [⟨1, 0, a - 1, "fat32"⟩, ⟨2, a, a + c - 1, "ext4"⟩,
          ⟨3, a + c, a + 2 * c - 1, "ext4"⟩,
          ⟨4, a + 2 * c, a + 2 * c + b - 1, "fat32"⟩]⟩).getLast? =
      some ⟨a + 2 * c + b, N - 1⟩ := by
    rw [hfr0]
    rfl
  simp only [hlast]
  rw [if_neg (show ¬(dynamicEntries (PART_TABLE 512)).length = 0 by decide)]
  have hde : dynamicEntries (PART_TABLE 512) =
      [(1, MIN_OS_PART_SIZE 512), (2, MIN_OS_PART_SIZE 512)] := rfl
  have hcond : ((dynamicEntries (PART_TABLE 512)).any fun x =>
      scriptTarget (PART_TABLE 512) ⟨a + 2 * c + b, N - 1⟩
        ⟨N, 512,
          [⟨1, 0, a - 1, "fat32"⟩, ⟨2, a, a + c - 1, "ext4"⟩,
            ⟨3, a + c, a + 2 * c - 1, "ext4"⟩,
            ⟨4, a + 2 * c, a + 2 * c + b - 1, "fat32"⟩]⟩ < x.2) = false := by
    simp only [hde, hT, List.any_cons, List.any_nil, Bool.or_false, Bool.or_self,
      decide_eq_false_iff_not]
    omega
  rw [if_neg (show ¬((dynamicEntries (PART_TABLE 512)).any fun x =>
      scriptTarget (PART_TABLE 512) ⟨a + 2 * c + b, N - 1⟩
        ⟨N, 512,
          [⟨1, 0, a - 1, "fat32"⟩, ⟨2, a, a + c - 1, "ext4"⟩,
            ⟨3, a + c, a + 2 * c - 1, "ext4"⟩,
            ⟨4, a + 2 * c, a + 2 * c + b - 1, "fat32"⟩]⟩ < x.2) = true by
    intro h
    rw [hcond] at h
    exact Bool.false_ne_true h)]
  rw [hT]
  rw [show (dynamicNums (PART_TABLE 512)).headD 0 = 2 from by decide]
  rw [show (PART_TABLE 512).enum.reverse =
      [((3 : ℕ), (⟨"fat", "fat32", 0⟩ : TemplateEntry)),
        (2, ⟨"ext4", "ext2", MIN_OS_PART_SIZE 512⟩),
        (1, ⟨"ext4", "ext2", MIN_OS_PART_SIZE 512⟩),
        (0, ⟨"fat", "fat32", 0⟩)] from rfl]
  rw [family_iter3 N a b c F T hN ha hb hc hbF]
  rw [family_iter2 N a b c F T (MIN_OS_PART_SIZE 512) hN ha hb hc hMpos hTc hTF]
  rw [family_iter1 N a b c F T (MIN_OS_PART_SIZE 512) hN ha hb hc hMpos hTc hTF]
  rw [reconcileLoop_break (freeRegions_family_final N a b T ha hb (by omega))]
  simp only [List.cons_append, List.nil_append]

/-- C8 (amended).  On the bootstrap family - device of `N = a + 2c + b + F`
sectors laid out as fat `a`, ext4 `c`, ext4 `c`, fat `b` contiguously from
sector 0 with trailing free space `F` - the run does converge to zero free
regions provided the computed target `T` additionally satisfies `c ≤ T`
(the moved ext4 partition may only grow) and `T + 2 ≤ F` (its destination
fits in the trailing gap); the sizing premise of the claim is
`MIN_OS_PART_SIZE 512 ≤ T`, and `b + 1 ≤ F` lets the trailing fat partition
(one sector longer than its data, see C2) fit at the device tail.  The run
ends `.ok` with the exact final table and action trace, and the final state
has zero free-space regions. -/
theorem C8_convergence_amended (N a b c F T : ℤ) (hN : N = a + 2 * c + b + F)
    (ha : 1 ≤ a) (hb : 1 ≤ b) (hc : 1 ≤ c) (hbF : b + 1 ≤ F)
    (hT : scriptTarget (PART_TABLE 512) ⟨a + 2 * c + b, N - 1⟩
      (bootstrapDisk N a b c) = T)
    (hTmin : MIN_OS_PART_SIZE 512 ≤ T)
    (hTc : c ≤ T) (hTF : T + 2 ≤ F) :
    runScript (PART_TABLE 512) (bootstrapDisk N a b c) =
      .ok ⟨⟨N, 512,
          [⟨1, 0, a - 1, "fat32"⟩, ⟨2, a, N - 3 - b - T, "ext4"⟩,
            ⟨3, N - 2 - b - T, N - 2 - b, "ext4"⟩, ⟨4, N - 1 - b, N - 1, "fat32"⟩]⟩,
        [.copyData ((a + 2 * c) * 512) ((N - 1 - b) * 512) (b * 512),
          .deletePart 4, .createPart (N - 1 - b) (N - 1) "fat32",
          .copyData ((a + c) * 512) ((N - 2 - b - T) * 512) (c * 512),
          .deletePart 3, .createPart (N - 2 - b - T) (N - 2 - b - T + c) "ext4",
          .resizePart 3 (N - 2 - b), .resizeFs 3,
          .resizePart 2 (N - 3 - b - T), .resizeFs 2]⟩ ∧
      Disk.getFreeSpaceRegions
        ⟨N, 512,
          [⟨1, 0, a - 1, "fat32"⟩, ⟨2, a, N - 3 - b - T, "ext4"⟩,
            ⟨3, N - 2 - b - T, N - 2 - b, "ext4"⟩,
            ⟨4, N - 1 - b, N - 1, "fat32"⟩]⟩ = [] :=
  ⟨family_runScript N a b c F T hN ha hb hc hbF hT hTmin hTc hTF,
    freeRegions_family_final N a b T ha hb (by omega)⟩

/-- C8 (amended, witness): the convergence theorem applied to a 62 500 000
sector device with the bootstrap layout fat 204800, ext4 8388608,
ext4 8388608, fat 204800; the computed target is 31045200 sectors and the
run converges to zero free regions. -/
theorem C8_convergence_amended_witness :
    runScript (PART_TABLE 512) (bootstrapDisk 62500000 204800 204800 8388608) =
      .ok ⟨⟨62500000, 512,
          [⟨1, 0, 204800 - 1, "fat32"⟩,
            ⟨2, 204800, 62500000 - 3 - 204800 - 31045200, "ext4"⟩,
            ⟨3, 62500000 - 2 - 204800 - 31045200, 62500000 - 2 - 204800, "ext4"⟩,
            ⟨4, 62500000 - 1 - 204800, 62500000 - 1, "fat32"⟩]⟩,
        [.copyData ((204800 + 2 * 8388608) * 512) ((62500000 - 1 - 204800) * 512)
            (204800 * 512),
          .deletePart 4, .createPart (62500000 - 1 - 204800) (62500000 - 1) "fat32",
          .copyData ((204800 + 8388608) * 512)
            ((62500000 - 2 - 204800 - 31045200) * 512) (8388608 * 512),
          .deletePart 3,
          .createPart (62500000 - 2 - 204800 - 31045200)
            (62500000 - 2 - 204800 - 31045200 + 8388608) "ext4",
          .resizePart 3 (62500000 - 2 - 204800), .resizeFs 3,
          .resizePart 2 (62500000 - 3 - 204800 - 31045200), .resizeFs 2]⟩ ∧
      Disk.getFreeSpaceRegions
        ⟨62500000, 512,
          [⟨1, 0, 204800 - 1, "fat32"⟩,
            ⟨2, 204800, 62500000 - 3 - 204800 - 31045200, "ext4"⟩,
            ⟨3, 62500000 - 2 - 204800 - 31045200, 62500000 - 2 - 204800, "ext4"⟩,
            ⟨4, 62500000 - 1 - 204800, 62500000 - 1, "fat32"⟩]⟩ = [] :=
  C8_convergence_amended 62500000 204800 204800 8388608 45313184 31045200
    (by decide) (by decide) (by decide) (by decide) (by decide) (by decide)
    (by decide) (by decide) (by decide)

/-- C7 (counterexample).  Layout validation (source lines 143-152) compares
filesystem families positionally and never inspects slot numbers, which in
an msdos label need not follow on-disk order.  On a 34 000 000-sector device
whose leading fat partition occupies slot 2 - the anchor's number,
`dynamic_part_nums[0]` - with the ext4 partitions in slots 1 and 3 and a
single free gap after the leading partition, the layout validates, the
sizing check passes (target 12694304 >= 8388608), the first three loop
entries skip (the free gap ends before each partition), and the final fixed
entry relocates the slot-2 partition to the gap's end (source lines
183-184); it is recreated at start sector 16795199 with the freed lowest
slot number 2.  The run completes without a fatal exit, yet the partition
numbered `dynamic_part_nums[0]` has a different start sector afterwards,
refuting the universally quantified anchor invariant. -/
theorem C7_anchor_counterexample :
    validateLayout (PART_TABLE 512)
        [⟨2, 0, 204799, "fat32"⟩, ⟨1, 17000000, 25388607, "ext4"⟩,
          ⟨3, 25388608, 33795215, "ext4"⟩, ⟨4, 33795216, 33999999, "fat32"⟩] =
      none ∧
    (([⟨2, 0, 204799, "fat32"⟩, ⟨1, 17000000, 25388607, "ext4"⟩,
        ⟨3, 25388608, 33795215, "ext4"⟩,
        ⟨4, 33795216, 33999999, "fat32"⟩] : List Partition).find? fun p =>
      p.number = (dynamicNums (PART_TABLE 512)).headD 0) =
      some ⟨2, 0, 204799, "fat32"⟩ ∧
    runScript (PART_TABLE 512)
        ⟨34000000, 512,
          [⟨2, 0, 204799, "fat32"⟩, ⟨1, 17000000, 25388607, "ext4"⟩,
            ⟨3, 25388608, 33795215, "ext4"⟩, ⟨4, 33795216, 33999999, "fat32"⟩]⟩ =
      .ok ⟨⟨34000000, 512,
          [⟨2, 16795199, 16999999, "fat32"⟩, ⟨1, 17000000, 25388607, "ext4"⟩,
            ⟨3, 25388608, 33795215, "ext4"⟩, ⟨4, 33795216, 33999999, "fat32"⟩]⟩,
        [.copyData 0 (16795199 * 512) (204800 * 512), .deletePart 2,
          .createPart 16795199 16999999 "fat32"]⟩ ∧
    (([⟨2, 16795199, 16999999, "fat32"⟩, ⟨1, 17000000, 25388607, "ext4"⟩,
        ⟨3, 25388608, 33795215, "ext4"⟩,
        ⟨4, 33795216, 33999999, "fat32"⟩] : List Partition).find? fun p =>
      p.number = (dynamicNums (PART_TABLE 512)).headD 0) =
      some ⟨2, 16795199, 16999999, "fat32"⟩ := by
  decide

/-- C7 (amended).  The invariant does hold on the bootstrap family the
script targets, where slot numbers 1-4 follow on-disk order: across the full
run, the lowest-numbered dynamic partition (slot `dynamic_part_nums[0]`,
here number 2) keeps its number, its start sector and its filesystem type;
only its end sector changes - it is resized in place (source line 182) and,
being the anchor, is never relocated (the move at source line 179 is guarded
by `number > dynamic_part_nums[0]`). -/
theorem C7_anchor_invariant (N a b c F T : ℤ) (hN : N = a + 2 * c + b + F)
    (ha : 1 ≤ a) (hb : 1 ≤ b) (hc : 1 ≤ c) (hbF : b + 1 ≤ F)
    (hT : scriptTarget (PART_TABLE 512) ⟨a + 2 * c + b, N - 1⟩
      (bootstrapDisk N a b c) = T)
    (hTmin : MIN_OS_PART_SIZE 512 ≤ T)
    (hTc : c ≤ T) (hTF : T + 2 ≤ F) :
    ∃ s1 p0 p1,
      runScript (PART_TABLE 512) (bootstrapDisk N a b c) = .ok s1 ∧
      ((bootstrapDisk N a b c).partitions.find? fun p =>
        p.number = (dynamicNums (PART_TABLE 512)).headD 0) = some p0 ∧
      (s1.disk.partitions.find? fun p =>
        p.number = (dynamicNums (PART_TABLE 512)).headD 0) = some p1 ∧
      p1.number = p0.number ∧ p1.start = p0.start ∧ p1.fsType = p0.fsType :=
  ⟨_, ⟨2, a, a + c - 1, "ext4"⟩, ⟨2, a, N - 3 - b - T, "ext4"⟩,
    family_runScript N a b c F T hN ha hb hc hbF hT hTmin hTc hTF,
    rfl, rfl, rfl, rfl, rfl⟩

/-- C7 witness: the anchor invariant applied to a 62 500 001 sector device
with the bootstrap layout fat 204800, ext4 8388608, ext4 8388608,
fat 204800 (target 31045200 sectors). -/
theorem C7_anchor_invariant_witness :
    ∃ s1 p0 p1,
      runScript (PART_TABLE 512) (bootstrapDisk 62500001 204800 204800 8388608) =
        .ok s1 ∧
      ((bootstrapDisk 62500001 204800 204800 8388608).partitions.find? fun p =>
        p.number = (dynamicNums (PART_TABLE 512)).headD 0) = some p0 ∧
      (s1.disk.partitions.find? fun p =>
        p.number = (dynamicNums (PART_TABLE 512)).headD 0) = some p1 ∧
      p1.number = p0.number ∧ p1.start = p0.start ∧ p1.fsType = p0.fsType :=
  C7_anchor_invariant 62500001 204800 204800 8388608 45313185 31045200
    (by decide) (by decide) (by decide) (by decide) (by decide) (by decide)
    (by decide) (by decide) (by decide)

end ExpandPartitions

